import Mathlib

/-!
Verification of the Paillier cryptosystem engine in `homoReducer.py`.

Python integers are modelled as `Int`.  Python `%` is floor-mod, which is
`Int.fmod`; Python `//` is floor-division, which is `Int.fdiv`.  Fallible
operations (Python `raise`) are modelled with `Except Err`.  Randomness
(`random.SystemRandom`, `random.randint`) is modelled by passing the drawn
values as explicit arguments.
-/

namespace HomoReducer

/-- Error values.  Each constructor records one exception site of the source:
`domain` is `ValueError` from Python `pow` with modulus `0`; `notInvertible`
is `ZeroDivisionError` in `invert`; `valueOutOfRange` is the encode range
`ValueError`; `corrupted` and `overflow` are the two decode failures;
`invalidExponent` is the `decrease_exponent_to` `ValueError`;
`scalarOutOfBounds` is the `_raw_mul` bounds `ValueError`; `keyMismatch` is the
`PaillierPrivateKey.__init__` `ValueError`s.  `floatResult` marks the one
branch (decode with a negative exponent) whose Python result is a binary float
and therefore lies outside this integer embedding; it is not a Python error.
`assertFailed` is Python `AssertionError`, raised by the `assert n > 3` guard
of `miller_rabin`. -/
inductive Err where
  | domain
  | notInvertible
  | valueOutOfRange
  | corrupted
  | overflow
  | invalidExponent
  | scalarOutOfBounds
  | keyMismatch
  | floatResult
  | assertFailed
  deriving DecidableEq

/-- `powmod(a, b, c)` from the source.  The exponent is a natural number
because every call site of the program passes a nonnegative exponent.  The
`a == 1` shortcut returns `1` without inspecting the modulus.  Python `pow`
raises `ValueError` when the modulus is `0` and otherwise reduces with
floor-mod (`Int.fmod`, whose result carries the sign of the modulus).  The
`gmpy2` branch computes the same function as Python `pow`. -/
def powmod (a : Int) (b : Nat) (c : Int) : Except Err Int :=
  if a = 1 then .ok 1
  else if c = 0 then .error .domain
  else .ok ((a ^ b).fmod c)

/-- The body of the `while r1 != 0` loop of `extended_euclidean_algorithm`,
with explicit fuel.  Each pass replaces `(r0, r1)` by
`(r1, r0 - (r0 // r1) * r1)` and updates the Bezout coefficients the same
way.  At every call site `r1` starts nonnegative and strictly decreases, so
`natAbs b + 1` units of fuel always reach the `r1 = 0` exit. -/
def eeaLoop : Nat → Int × Int × Int → Int × Int × Int → Int × Int × Int
  | 0, acc, _ => acc
  | fuel + 1, (r0, s0, t0), (r1, s1, t1) =>
    if r1 = 0 then (r0, s0, t0)
    else
      let q := r0.fdiv r1
      eeaLoop fuel (r1, s1, t1) (r0 - q * r1, s0 - q * s1, t0 - q * t1)

/-- `extended_euclidean_algorithm(a, b)` from the source. -/
def extended_euclidean_algorithm (a b : Int) : Int × Int × Int :=
  eeaLoop (b.natAbs + 1) (a, 1, 0) (b, 0, 1)

/-- `invert(a, b)` from the source: raises `ZeroDivisionError` when the
returned remainder is not `1`, and otherwise returns `s0 % b`.  (The `gmpy2`
branch computes the same modular inverse.) -/
def invert (a b : Int) : Except Err Int :=
  match extended_euclidean_algorithm a b with
  | (r, s, _) => if r ≠ 1 then .error .notInvertible else .ok (s.fmod b)


/-- `PaillierPublicKey` stores `n`; `g`, `nsquare` and `max_int` are computed
from it in `__init__`, and equality/hashing are by `n` alone, so the key is
determined by `n`. -/
structure PaillierPublicKey where
  n : Int
  deriving DecidableEq

namespace PaillierPublicKey

/-- `self.g = n + 1`. -/
def g (pk : PaillierPublicKey) : Int := pk.n + 1

/-- `self.nsquare = n * n`. -/
def nsquare (pk : PaillierPublicKey) : Int := pk.n * pk.n

/-- `self.max_int = n // 3 - 1`. -/
def max_int (pk : PaillierPublicKey) : Int := pk.n.fdiv 3 - 1

/-- `PaillierPublicKey.raw_encrypt(plaintext, r_value)`.  The random
`get_random_lt_n()` draw taken when `r_value` is `None` is modelled by the
explicit argument `r`; every caller in the program passes a value. -/
def raw_encrypt (pk : PaillierPublicKey) (plaintext : Int) (r : Int) :
    Except Err Int := do
  let nude_ciphertext ←
    if pk.n - pk.max_int ≤ plaintext ∧ plaintext < pk.n then do
      let neg_plaintext := pk.n - plaintext
      let neg_ciphertext := (pk.n * neg_plaintext + 1).fmod pk.nsquare
      invert neg_ciphertext pk.nsquare
    else
      pure ((pk.n * plaintext + 1).fmod pk.nsquare)
  let obfuscator ← powmod r pk.n.toNat pk.nsquare
  pure ((nude_ciphertext * obfuscator).fmod pk.nsquare)

end PaillierPublicKey

/-- `EncodedNumber(public_key, encoding, exponent)`; the key reference is
passed separately to the functions below. -/
structure EncodedNumber where
  encoding : Int
  exponent : Int
  deriving DecidableEq

namespace EncodedNumber

/-- `EncodedNumber.BASE = 16`. -/
def BASE : Int := 16

/-- `EncodedNumber.encode(public_key, scalar, precision=None, max_exponent)`
for an `int` scalar, the only scalar type this program feeds it.  For an
`int`, `prec_exponent = 0`, so `exponent = min max_exponent 0` (just `0` when
no `max_exponent` is given), and since `exponent ≤ 0`,
`round(Fraction(scalar) * Fraction(BASE) ** -exponent)` is the exact integer
`scalar * BASE ^ (-exponent)`.  The `float` branch (`math.frexp`) is outside
this integer embedding. -/
def encode (pk : PaillierPublicKey) (scalar : Int) (max_exponent : Option Int) :
    Except Err EncodedNumber :=
  let exponent : Int := match max_exponent with
    | none => 0
    | some me => min me 0
  let int_rep : Int := scalar * BASE ^ (-exponent).toNat
  if pk.max_int < |int_rep| then .error .valueOutOfRange
  else .ok ⟨int_rep.fmod pk.n, exponent⟩

/-- The residue-classification half of `EncodedNumber.decode`: reject
residues `≥ n` as corrupted, read residues `≤ max_int` as positive mantissas,
residues `≥ n - max_int` as negative mantissas (`residue - n`), and reject
the dead zone in between as overflow. -/
def decodeMantissa (pk : PaillierPublicKey) (encoding : Int) :
    Except Err Int :=
  if pk.n ≤ encoding then .error .corrupted
  else if encoding ≤ pk.max_int then .ok encoding
  else if pk.n - pk.max_int ≤ encoding then .ok (encoding - pk.n)
  else .error .overflow

/-- `EncodedNumber.decode`.  For `exponent ≥ 0` the result is the exact
integer `mantissa * BASE ** exponent`.  For `exponent < 0` the source
computes `mantissa / (BASE ** -exponent)` with Python float true division;
that result is a binary floating-point number, which this integer embedding
does not model — the `floatResult` marker records that the execution reached
that branch (in Python it is a normal return, not an error). -/
def decode (pk : PaillierPublicKey) (e : EncodedNumber) : Except Err Int := do
  let mantissa ← decodeMantissa pk e.encoding
  if 0 ≤ e.exponent then pure (mantissa * BASE ^ e.exponent.toNat)
  else .error .floatResult

/-- `EncodedNumber.decrease_exponent_to(new_exp)`. -/
def decrease_exponent_to (pk : PaillierPublicKey) (e : EncodedNumber)
    (new_exp : Int) : Except Err EncodedNumber :=
  if e.exponent < new_exp then .error .invalidExponent
  else .ok ⟨(e.encoding * BASE ^ (e.exponent - new_exp).toNat).fmod pk.n,
    new_exp⟩

end EncodedNumber

/-- `EncryptedNumber(public_key, ciphertext, exponent)`: `__init__` sets the
private `__is_obfuscated` flag to `False`. -/
structure EncryptedNumber where
  ciphertext : Int
  exponent : Int
  is_obfuscated : Bool
  deriving DecidableEq

namespace EncryptedNumber

/-- `EncryptedNumber.__init__`: a freshly constructed instance. -/
def make (c e : Int) : EncryptedNumber := ⟨c, e, false⟩

/-- `EncryptedNumber.obfuscate`, with the `get_random_lt_n()` draw passed as
the explicit `r`; the in-place mutation of the ciphertext/flag pair is
modelled by returning the updated instance. -/
def obfuscate (pk : PaillierPublicKey) (e : EncryptedNumber) (r : Int) :
    Except Err EncryptedNumber := do
  let r_pow_n ← powmod r pk.n.toNat pk.nsquare
  pure ⟨(e.ciphertext * r_pow_n).fmod pk.nsquare, e.exponent, true⟩

/-- `EncryptedNumber.ciphertext(be_secure)`: returns the raw ciphertext
together with the possibly mutated instance (`be_secure=True` obfuscates a
not-yet-obfuscated instance first, drawing `r`). -/
def reveal (pk : PaillierPublicKey) (e : EncryptedNumber) (be_secure : Bool)
    (r : Int) : Except Err (Int × EncryptedNumber) := do
  if be_secure && !e.is_obfuscated then do
    let e' ← obfuscate pk e r
    pure (e'.ciphertext, e')
  else
    pure (e.ciphertext, e)

/-- `EncryptedNumber._raw_add`. -/
def raw_add (pk : PaillierPublicKey) (e_a e_b : Int) : Int :=
  (e_a * e_b).fmod pk.nsquare

/-- `EncryptedNumber._raw_mul`.  Both branches use `self.ciphertext(False)`,
which reads the raw field without mutating. -/
def raw_mul (pk : PaillierPublicKey) (e : EncryptedNumber) (plaintext : Int) :
    Except Err Int := do
  if plaintext < 0 ∨ pk.n ≤ plaintext then .error .scalarOutOfBounds
  else if pk.n - pk.max_int ≤ plaintext then do
    let neg_c ← invert e.ciphertext pk.nsquare
    let neg_scalar := pk.n - plaintext
    powmod neg_c neg_scalar.toNat pk.nsquare
  else
    powmod e.ciphertext plaintext.toNat pk.nsquare

/-- `EncryptedNumber.__mul__` with an `int` scalar (multiplying two
`EncryptedNumber`s raises `NotImplementedError`; an `EncodedNumber` operand
reuses the given encoding, which for the `int` case equals `encode`). -/
def mul (pk : PaillierPublicKey) (e : EncryptedNumber) (other : Int) :
    Except Err EncryptedNumber := do
  let encoding ← EncodedNumber.encode pk other none
  let product ← raw_mul pk e encoding.encoding
  pure ⟨product, e.exponent + encoding.exponent, false⟩

/-- `EncryptedNumber.decrease_exponent_to(new_exp)`: multiplies by
`BASE ** (exponent - new_exp)` via `__mul__` and then overwrites the
exponent of the product. -/
def decrease_exponent_to (pk : PaillierPublicKey) (e : EncryptedNumber)
    (new_exp : Int) : Except Err EncryptedNumber := do
  if e.exponent < new_exp then .error .invalidExponent
  else do
    let multiplied ← mul pk e (EncodedNumber.BASE ^ (e.exponent - new_exp).toNat)
    pure ⟨multiplied.ciphertext, new_exp, multiplied.is_obfuscated⟩

/-- `EncryptedNumber._add_encrypted` (both operands under the same public
key, which the source compares before combining): aligns exponents to the
lesser one and multiplies the ciphertexts mod `n²`. -/
def add_encrypted (pk : PaillierPublicKey) (a b : EncryptedNumber) :
    Except Err EncryptedNumber := do
  let (a, b) ←
    if b.exponent < a.exponent then do
      let a' ← decrease_exponent_to pk a b.exponent
      pure (a', b)
    else if a.exponent < b.exponent then do
      let b' ← decrease_exponent_to pk b a.exponent
      pure (a, b')
    else
      pure (a, b)
  pure ⟨raw_add pk a.ciphertext b.ciphertext, a.exponent, false⟩

/-- `EncryptedNumber._add_encoded` (same public key): aligns exponents,
raw-encrypts the encoding with `r = 1`, and multiplies ciphertexts. -/
def add_encoded (pk : PaillierPublicKey) (a : EncryptedNumber)
    (encoded : EncodedNumber) : Except Err EncryptedNumber := do
  let (a, b) ←
    if encoded.exponent < a.exponent then do
      let a' ← decrease_exponent_to pk a encoded.exponent
      pure (a', encoded)
    else if a.exponent < encoded.exponent then do
      let b' ← EncodedNumber.decrease_exponent_to pk encoded a.exponent
      pure (a, b')
    else
      pure (a, encoded)
  let encrypted_scalar ← pk.raw_encrypt b.encoding 1
  pure ⟨raw_add pk a.ciphertext encrypted_scalar, a.exponent, false⟩

/-- `EncryptedNumber._add_scalar`. -/
def add_scalar (pk : PaillierPublicKey) (a : EncryptedNumber) (scalar : Int) :
    Except Err EncryptedNumber := do
  let encoded ← EncodedNumber.encode pk scalar (some a.exponent)
  add_encoded pk a encoded

/-- `EncryptedNumber.__sub__`: `self + (other * -1)`. -/
def sub (pk : PaillierPublicKey) (a b : EncryptedNumber) :
    Except Err EncryptedNumber := do
  let nb ← mul pk b (-1)
  add_encrypted pk a nb

end EncryptedNumber

/-- `PaillierPublicKey.encrypt_encoded(encoding, r_value)`.  `r_obf` models
the random draw inside the `obfuscate()` call taken when `r_value is None`.
Python's `r_value or 1` maps both `None` and `0` to `1`. -/
def PaillierPublicKey.encrypt_encoded (pk : PaillierPublicKey)
    (encoding : EncodedNumber) (r_value : Option Int) (r_obf : Int) :
    Except Err EncryptedNumber := do
  let obfuscator : Int := match r_value with
    | none => 1
    | some v => if v = 0 then 1 else v
  let ciphertext ← pk.raw_encrypt encoding.encoding obfuscator
  let encrypted_number : EncryptedNumber := ⟨ciphertext, encoding.exponent, false⟩
  match r_value with
  | none => EncryptedNumber.obfuscate pk encrypted_number r_obf
  | some _ => pure encrypted_number

/-- `PaillierPublicKey.encrypt(value, precision=None, r_value)` for an `int`
value: encodes (no precision, no `max_exponent`) and defers to
`encrypt_encoded`. -/
def PaillierPublicKey.encrypt (pk : PaillierPublicKey) (value : Int)
    (r_value : Option Int) (r_obf : Int) : Except Err EncryptedNumber := do
  let encoding ← EncodedNumber.encode pk value none
  pk.encrypt_encoded encoding r_value r_obf

/-- `PaillierPrivateKey`: the stored fields after `__init__` (with `p < q`
canonicalized). -/
structure PaillierPrivateKey where
  p : Int
  q : Int
  psquare : Int
  qsquare : Int
  p_inverse : Int
  hp : Int
  hq : Int
  deriving DecidableEq

namespace PaillierPrivateKey

/-- `PaillierPrivateKey.l_function(x, p) = (x - 1) // p`. -/
def l_function (x p : Int) : Int := (x - 1).fdiv p

/-- `PaillierPrivateKey.h_function(x, xsquare)`. -/
def h_function (pk : PaillierPublicKey) (x xsquare : Int) : Except Err Int := do
  let t ← powmod pk.g (x - 1).toNat xsquare
  invert (l_function t x) x

/-- `PaillierPrivateKey.__init__(public_key, p, q)`: checks `p*q == n` and
`p ≠ q`, canonicalizes `p < q`, and precomputes `psquare`, `qsquare`,
`p_inverse = p⁻¹ mod q`, `hp`, `hq`. -/
def mk' (pk : PaillierPublicKey) (p q : Int) : Except Err PaillierPrivateKey := do
  if p * q ≠ pk.n then .error .keyMismatch
  else if p = q then .error .keyMismatch
  else do
    let (p, q) := if q < p then (q, p) else (p, q)
    let psquare := p * p
    let qsquare := q * q
    let p_inverse ← invert p q
    let hp ← h_function pk p psquare
    let hq ← h_function pk q qsquare
    pure ⟨p, q, psquare, qsquare, p_inverse, hp, hq⟩

/-- `PaillierPrivateKey.crt(mp, mq)`. -/
def crt (sk : PaillierPrivateKey) (mp mq : Int) : Int :=
  let u := ((mq - mp) * sk.p_inverse).fmod sk.q
  mp + u * sk.p

/-- `PaillierPrivateKey.raw_decrypt(ciphertext)`. -/
def raw_decrypt (sk : PaillierPrivateKey) (ciphertext : Int) :
    Except Err Int := do
  let xp ← powmod ciphertext (sk.p - 1).toNat sk.psquare
  let decrypt_to_p := (l_function xp sk.p * sk.hp).fmod sk.p
  let xq ← powmod ciphertext (sk.q - 1).toNat sk.qsquare
  let decrypt_to_q := (l_function xq sk.q * sk.hq).fmod sk.q
  pure (sk.crt decrypt_to_p decrypt_to_q)

/-- `PaillierPrivateKey.decrypt_encoded` (the key-consistency check of the
source compares public keys; this embedding passes a single key):
`raw_decrypt` of `encrypted_number.ciphertext(be_secure=False)`, which reads
the raw field without mutating. -/
def decrypt_encoded (sk : PaillierPrivateKey) (en : EncryptedNumber) :
    Except Err EncodedNumber := do
  let encoded ← sk.raw_decrypt en.ciphertext
  pure ⟨encoded, en.exponent⟩

/-- `PaillierPrivateKey.decrypt`. -/
def decrypt (pk : PaillierPublicKey) (sk : PaillierPrivateKey)
    (en : EncryptedNumber) : Except Err Int := do
  let encoded ← sk.decrypt_encoded en
  EncodedNumber.decode pk encoded

end PaillierPrivateKey

/-- The embedded table `first_primes` of the source (lines 151-334): the
first 2048 primes, ending at `17863`. -/
def first_primes : List Nat := [
  2, 3, 5, 7, 11, 13, 17, 19, 23, 29, 31, 37, 41, 43, 47, 53, 59, 61, 67, 71,
  73, 79, 83, 89, 97, 101, 103, 107, 109, 113, 127, 131, 137, 139, 149, 151,
  157, 163, 167, 173, 179, 181, 191, 193, 197, 199, 211, 223, 227, 229, 233,
  239, 241, 251, 257, 263, 269, 271, 277, 281, 283, 293, 307, 311, 313, 317,
  331, 337, 347, 349, 353, 359, 367, 373, 379, 383, 389, 397, 401, 409, 419,
  421, 431, 433, 439, 443, 449, 457, 461, 463, 467, 479, 487, 491, 499, 503,
  509, 521, 523, 541, 547, 557, 563, 569, 571, 577, 587, 593, 599, 601, 607,
  613, 617, 619, 631, 641, 643, 647, 653, 659, 661, 673, 677, 683, 691, 701,
  709, 719, 727, 733, 739, 743, 751, 757, 761, 769, 773, 787, 797, 809, 811,
  821, 823, 827, 829, 839, 853, 857, 859, 863, 877, 881, 883, 887, 907, 911,
  919, 929, 937, 941, 947, 953, 967, 971, 977, 983, 991, 997, 1009, 1013,
  1019, 1021, 1031, 1033, 1039, 1049, 1051, 1061, 1063, 1069, 1087, 1091,
  1093, 1097, 1103, 1109, 1117, 1123, 1129, 1151, 1153, 1163, 1171, 1181,
  1187, 1193, 1201, 1213, 1217, 1223, 1229, 1231, 1237, 1249, 1259, 1277,
  1279, 1283, 1289, 1291, 1297, 1301, 1303, 1307, 1319, 1321, 1327, 1361,
  1367, 1373, 1381, 1399, 1409, 1423, 1427, 1429, 1433, 1439, 1447, 1451,
  1453, 1459, 1471, 1481, 1483, 1487, 1489, 1493, 1499, 1511, 1523, 1531,
  1543, 1549, 1553, 1559, 1567, 1571, 1579, 1583, 1597, 1601, 1607, 1609,
  1613, 1619, 1621, 1627, 1637, 1657, 1663, 1667, 1669, 1693, 1697, 1699,
  1709, 1721, 1723, 1733, 1741, 1747, 1753, 1759, 1777, 1783, 1787, 1789,
  1801, 1811, 1823, 1831, 1847, 1861, 1867, 1871, 1873, 1877, 1879, 1889,
  1901, 1907, 1913, 1931, 1933, 1949, 1951, 1973, 1979, 1987, 1993, 1997,
  1999, 2003, 2011, 2017, 2027, 2029, 2039, 2053, 2063, 2069, 2081, 2083,
  2087, 2089, 2099, 2111, 2113, 2129, 2131, 2137, 2141, 2143, 2153, 2161,
  2179, 2203, 2207, 2213, 2221, 2237, 2239, 2243, 2251, 2267, 2269, 2273,
  2281, 2287, 2293, 2297, 2309, 2311, 2333, 2339, 2341, 2347, 2351, 2357,
  2371, 2377, 2381, 2383, 2389, 2393, 2399, 2411, 2417, 2423, 2437, 2441,
  2447, 2459, 2467, 2473, 2477, 2503, 2521, 2531, 2539, 2543, 2549, 2551,
  2557, 2579, 2591, 2593, 2609, 2617, 2621, 2633, 2647, 2657, 2659, 2663,
  2671, 2677, 2683, 2687, 2689, 2693, 2699, 2707, 2711, 2713, 2719, 2729,
  2731, 2741, 2749, 2753, 2767, 2777, 2789, 2791, 2797, 2801, 2803, 2819,
  2833, 2837, 2843, 2851, 2857, 2861, 2879, 2887, 2897, 2903, 2909, 2917,
  2927, 2939, 2953, 2957, 2963, 2969, 2971, 2999, 3001, 3011, 3019, 3023,
  3037, 3041, 3049, 3061, 3067, 3079, 3083, 3089, 3109, 3119, 3121, 3137,
  3163, 3167, 3169, 3181, 3187, 3191, 3203, 3209, 3217, 3221, 3229, 3251,
  3253, 3257, 3259, 3271, 3299, 3301, 3307, 3313, 3319, 3323, 3329, 3331,
  3343, 3347, 3359, 3361, 3371, 3373, 3389, 3391, 3407, 3413, 3433, 3449,
  3457, 3461, 3463, 3467, 3469, 3491, 3499, 3511, 3517, 3527, 3529, 3533,
  3539, 3541, 3547, 3557, 3559, 3571, 3581, 3583, 3593, 3607, 3613, 3617,
  3623, 3631, 3637, 3643, 3659, 3671, 3673, 3677, 3691, 3697, 3701, 3709,
  3719, 3727, 3733, 3739, 3761, 3767, 3769, 3779, 3793, 3797, 3803, 3821,
  3823, 3833, 3847, 3851, 3853, 3863, 3877, 3881, 3889, 3907, 3911, 3917,
  3919, 3923, 3929, 3931, 3943, 3947, 3967, 3989, 4001, 4003, 4007, 4013,
  4019, 4021, 4027, 4049, 4051, 4057, 4073, 4079, 4091, 4093, 4099, 4111,
  4127, 4129, 4133, 4139, 4153, 4157, 4159, 4177, 4201, 4211, 4217, 4219,
  4229, 4231, 4241, 4243, 4253, 4259, 4261, 4271, 4273, 4283, 4289, 4297,
  4327, 4337, 4339, 4349, 4357, 4363, 4373, 4391, 4397, 4409, 4421, 4423,
  4441, 4447, 4451, 4457, 4463, 4481, 4483, 4493, 4507, 4513, 4517, 4519,
  4523, 4547, 4549, 4561, 4567, 4583, 4591, 4597, 4603, 4621, 4637, 4639,
  4643, 4649, 4651, 4657, 4663, 4673, 4679, 4691, 4703, 4721, 4723, 4729,
  4733, 4751, 4759, 4783, 4787, 4789, 4793, 4799, 4801, 4813, 4817, 4831,
  4861, 4871, 4877, 4889, 4903, 4909, 4919, 4931, 4933, 4937, 4943, 4951,
  4957, 4967, 4969, 4973, 4987, 4993, 4999, 5003, 5009, 5011, 5021, 5023,
  5039, 5051, 5059, 5077, 5081, 5087, 5099, 5101, 5107, 5113, 5119, 5147,
  5153, 5167, 5171, 5179, 5189, 5197, 5209, 5227, 5231, 5233, 5237, 5261,
  5273, 5279, 5281, 5297, 5303, 5309, 5323, 5333, 5347, 5351, 5381, 5387,
  5393, 5399, 5407, 5413, 5417, 5419, 5431, 5437, 5441, 5443, 5449, 5471,
  5477, 5479, 5483, 5501, 5503, 5507, 5519, 5521, 5527, 5531, 5557, 5563,
  5569, 5573, 5581, 5591, 5623, 5639, 5641, 5647, 5651, 5653, 5657, 5659,
  5669, 5683, 5689, 5693, 5701, 5711, 5717, 5737, 5741, 5743, 5749, 5779,
  5783, 5791, 5801, 5807, 5813, 5821, 5827, 5839, 5843, 5849, 5851, 5857,
  5861, 5867, 5869, 5879, 5881, 5897, 5903, 5923, 5927, 5939, 5953, 5981,
  5987, 6007, 6011, 6029, 6037, 6043, 6047, 6053, 6067, 6073, 6079, 6089,
  6091, 6101, 6113, 6121, 6131, 6133, 6143, 6151, 6163, 6173, 6197, 6199,
  6203, 6211, 6217, 6221, 6229, 6247, 6257, 6263, 6269, 6271, 6277, 6287,
  6299, 6301, 6311, 6317, 6323, 6329, 6337, 6343, 6353, 6359, 6361, 6367,
  6373, 6379, 6389, 6397, 6421, 6427, 6449, 6451, 6469, 6473, 6481, 6491,
  6521, 6529, 6547, 6551, 6553, 6563, 6569, 6571, 6577, 6581, 6599, 6607,
  6619, 6637, 6653, 6659, 6661, 6673, 6679, 6689, 6691, 6701, 6703, 6709,
  6719, 6733, 6737, 6761, 6763, 6779, 6781, 6791, 6793, 6803, 6823, 6827,
  6829, 6833, 6841, 6857, 6863, 6869, 6871, 6883, 6899, 6907, 6911, 6917,
  6947, 6949, 6959, 6961, 6967, 6971, 6977, 6983, 6991, 6997, 7001, 7013,
  7019, 7027, 7039, 7043, 7057, 7069, 7079, 7103, 7109, 7121, 7127, 7129,
  7151, 7159, 7177, 7187, 7193, 7207, 7211, 7213, 7219, 7229, 7237, 7243,
  7247, 7253, 7283, 7297, 7307, 7309, 7321, 7331, 7333, 7349, 7351, 7369,
  7393, 7411, 7417, 7433, 7451, 7457, 7459, 7477, 7481, 7487, 7489, 7499,
  7507, 7517, 7523, 7529, 7537, 7541, 7547, 7549, 7559, 7561, 7573, 7577,
  7583, 7589, 7591, 7603, 7607, 7621, 7639, 7643, 7649, 7669, 7673, 7681,
  7687, 7691, 7699, 7703, 7717, 7723, 7727, 7741, 7753, 7757, 7759, 7789,
  7793, 7817, 7823, 7829, 7841, 7853, 7867, 7873, 7877, 7879, 7883, 7901,
  7907, 7919, 7927, 7933, 7937, 7949, 7951, 7963, 7993, 8009, 8011, 8017,
  8039, 8053, 8059, 8069, 8081, 8087, 8089, 8093, 8101, 8111, 8117, 8123,
  8147, 8161, 8167, 8171, 8179, 8191, 8209, 8219, 8221, 8231, 8233, 8237,
  8243, 8263, 8269, 8273, 8287, 8291, 8293, 8297, 8311, 8317, 8329, 8353,
  8363, 8369, 8377, 8387, 8389, 8419, 8423, 8429, 8431, 8443, 8447, 8461,
  8467, 8501, 8513, 8521, 8527, 8537, 8539, 8543, 8563, 8573, 8581, 8597,
  8599, 8609, 8623, 8627, 8629, 8641, 8647, 8663, 8669, 8677, 8681, 8689,
  8693, 8699, 8707, 8713, 8719, 8731, 8737, 8741, 8747, 8753, 8761, 8779,
  8783, 8803, 8807, 8819, 8821, 8831, 8837, 8839, 8849, 8861, 8863, 8867,
  8887, 8893, 8923, 8929, 8933, 8941, 8951, 8963, 8969, 8971, 8999, 9001,
  9007, 9011, 9013, 9029, 9041, 9043, 9049, 9059, 9067, 9091, 9103, 9109,
  9127, 9133, 9137, 9151, 9157, 9161, 9173, 9181, 9187, 9199, 9203, 9209,
  9221, 9227, 9239, 9241, 9257, 9277, 9281, 9283, 9293, 9311, 9319, 9323,
  9337, 9341, 9343, 9349, 9371, 9377, 9391, 9397, 9403, 9413, 9419, 9421,
  9431, 9433, 9437, 9439, 9461, 9463, 9467, 9473, 9479, 9491, 9497, 9511,
  9521, 9533, 9539, 9547, 9551, 9587, 9601, 9613, 9619, 9623, 9629, 9631,
  9643, 9649, 9661, 9677, 9679, 9689, 9697, 9719, 9721, 9733, 9739, 9743,
  9749, 9767, 9769, 9781, 9787, 9791, 9803, 9811, 9817, 9829, 9833, 9839,
  9851, 9857, 9859, 9871, 9883, 9887, 9901, 9907, 9923, 9929, 9931, 9941,
  9949, 9967, 9973, 10007, 10009, 10037, 10039, 10061, 10067, 10069, 10079,
  10091, 10093, 10099, 10103, 10111, 10133, 10139, 10141, 10151, 10159,
  10163, 10169, 10177, 10181, 10193, 10211, 10223, 10243, 10247, 10253,
  10259, 10267, 10271, 10273, 10289, 10301, 10303, 10313, 10321, 10331,
  10333, 10337, 10343, 10357, 10369, 10391, 10399, 10427, 10429, 10433,
  10453, 10457, 10459, 10463, 10477, 10487, 10499, 10501, 10513, 10529,
  10531, 10559, 10567, 10589, 10597, 10601, 10607, 10613, 10627, 10631,
  10639, 10651, 10657, 10663, 10667, 10687, 10691, 10709, 10711, 10723,
  10729, 10733, 10739, 10753, 10771, 10781, 10789, 10799, 10831, 10837,
  10847, 10853, 10859, 10861, 10867, 10883, 10889, 10891, 10903, 10909,
  10937, 10939, 10949, 10957, 10973, 10979, 10987, 10993, 11003, 11027,
  11047, 11057, 11059, 11069, 11071, 11083, 11087, 11093, 11113, 11117,
  11119, 11131, 11149, 11159, 11161, 11171, 11173, 11177, 11197, 11213,
  11239, 11243, 11251, 11257, 11261, 11273, 11279, 11287, 11299, 11311,
  11317, 11321, 11329, 11351, 11353, 11369, 11383, 11393, 11399, 11411,
  11423, 11437, 11443, 11447, 11467, 11471, 11483, 11489, 11491, 11497,
  11503, 11519, 11527, 11549, 11551, 11579, 11587, 11593, 11597, 11617,
  11621, 11633, 11657, 11677, 11681, 11689, 11699, 11701, 11717, 11719,
  11731, 11743, 11777, 11779, 11783, 11789, 11801, 11807, 11813, 11821,
  11827, 11831, 11833, 11839, 11863, 11867, 11887, 11897, 11903, 11909,
  11923, 11927, 11933, 11939, 11941, 11953, 11959, 11969, 11971, 11981,
  11987, 12007, 12011, 12037, 12041, 12043, 12049, 12071, 12073, 12097,
  12101, 12107, 12109, 12113, 12119, 12143, 12149, 12157, 12161, 12163,
  12197, 12203, 12211, 12227, 12239, 12241, 12251, 12253, 12263, 12269,
  12277, 12281, 12289, 12301, 12323, 12329, 12343, 12347, 12373, 12377,
  12379, 12391, 12401, 12409, 12413, 12421, 12433, 12437, 12451, 12457,
  12473, 12479, 12487, 12491, 12497, 12503, 12511, 12517, 12527, 12539,
  12541, 12547, 12553, 12569, 12577, 12583, 12589, 12601, 12611, 12613,
  12619, 12637, 12641, 12647, 12653, 12659, 12671, 12689, 12697, 12703,
  12713, 12721, 12739, 12743, 12757, 12763, 12781, 12791, 12799, 12809,
  12821, 12823, 12829, 12841, 12853, 12889, 12893, 12899, 12907, 12911,
  12917, 12919, 12923, 12941, 12953, 12959, 12967, 12973, 12979, 12983,
  13001, 13003, 13007, 13009, 13033, 13037, 13043, 13049, 13063, 13093,
  13099, 13103, 13109, 13121, 13127, 13147, 13151, 13159, 13163, 13171,
  13177, 13183, 13187, 13217, 13219, 13229, 13241, 13249, 13259, 13267,
  13291, 13297, 13309, 13313, 13327, 13331, 13337, 13339, 13367, 13381,
  13397, 13399, 13411, 13417, 13421, 13441, 13451, 13457, 13463, 13469,
  13477, 13487, 13499, 13513, 13523, 13537, 13553, 13567, 13577, 13591,
  13597, 13613, 13619, 13627, 13633, 13649, 13669, 13679, 13681, 13687,
  13691, 13693, 13697, 13709, 13711, 13721, 13723, 13729, 13751, 13757,
  13759, 13763, 13781, 13789, 13799, 13807, 13829, 13831, 13841, 13859,
  13873, 13877, 13879, 13883, 13901, 13903, 13907, 13913, 13921, 13931,
  13933, 13963, 13967, 13997, 13999, 14009, 14011, 14029, 14033, 14051,
  14057, 14071, 14081, 14083, 14087, 14107, 14143, 14149, 14153, 14159,
  14173, 14177, 14197, 14207, 14221, 14243, 14249, 14251, 14281, 14293,
  14303, 14321, 14323, 14327, 14341, 14347, 14369, 14387, 14389, 14401,
  14407, 14411, 14419, 14423, 14431, 14437, 14447, 14449, 14461, 14479,
  14489, 14503, 14519, 14533, 14537, 14543, 14549, 14551, 14557, 14561,
  14563, 14591, 14593, 14621, 14627, 14629, 14633, 14639, 14653, 14657,
  14669, 14683, 14699, 14713, 14717, 14723, 14731, 14737, 14741, 14747,
  14753, 14759, 14767, 14771, 14779, 14783, 14797, 14813, 14821, 14827,
  14831, 14843, 14851, 14867, 14869, 14879, 14887, 14891, 14897, 14923,
  14929, 14939, 14947, 14951, 14957, 14969, 14983, 15013, 15017, 15031,
  15053, 15061, 15073, 15077, 15083, 15091, 15101, 15107, 15121, 15131,
  15137, 15139, 15149, 15161, 15173, 15187, 15193, 15199, 15217, 15227,
  15233, 15241, 15259, 15263, 15269, 15271, 15277, 15287, 15289, 15299,
  15307, 15313, 15319, 15329, 15331, 15349, 15359, 15361, 15373, 15377,
  15383, 15391, 15401, 15413, 15427, 15439, 15443, 15451, 15461, 15467,
  15473, 15493, 15497, 15511, 15527, 15541, 15551, 15559, 15569, 15581,
  15583, 15601, 15607, 15619, 15629, 15641, 15643, 15647, 15649, 15661,
  15667, 15671, 15679, 15683, 15727, 15731, 15733, 15737, 15739, 15749,
  15761, 15767, 15773, 15787, 15791, 15797, 15803, 15809, 15817, 15823,
  15859, 15877, 15881, 15887, 15889, 15901, 15907, 15913, 15919, 15923,
  15937, 15959, 15971, 15973, 15991, 16001, 16007, 16033, 16057, 16061,
  16063, 16067, 16069, 16073, 16087, 16091, 16097, 16103, 16111, 16127,
  16139, 16141, 16183, 16187, 16189, 16193, 16217, 16223, 16229, 16231,
  16249, 16253, 16267, 16273, 16301, 16319, 16333, 16339, 16349, 16361,
  16363, 16369, 16381, 16411, 16417, 16421, 16427, 16433, 16447, 16451,
  16453, 16477, 16481, 16487, 16493, 16519, 16529, 16547, 16553, 16561,
  16567, 16573, 16603, 16607, 16619, 16631, 16633, 16649, 16651, 16657,
  16661, 16673, 16691, 16693, 16699, 16703, 16729, 16741, 16747, 16759,
  16763, 16787, 16811, 16823, 16829, 16831, 16843, 16871, 16879, 16883,
  16889, 16901, 16903, 16921, 16927, 16931, 16937, 16943, 16963, 16979,
  16981, 16987, 16993, 17011, 17021, 17027, 17029, 17033, 17041, 17047,
  17053, 17077, 17093, 17099, 17107, 17117, 17123, 17137, 17159, 17167,
  17183, 17189, 17191, 17203, 17207, 17209, 17231, 17239, 17257, 17291,
  17293, 17299, 17317, 17321, 17327, 17333, 17341, 17351, 17359, 17377,
  17383, 17387, 17389, 17393, 17401, 17417, 17419, 17431, 17443, 17449,
  17467, 17471, 17477, 17483, 17489, 17491, 17497, 17509, 17519, 17539,
  17551, 17569, 17573, 17579, 17581, 17597, 17599, 17609, 17623, 17627,
  17657, 17659, 17669, 17681, 17683, 17707, 17713, 17729, 17737, 17747,
  17749, 17761, 17783, 17789, 17791, 17807, 17827, 17837, 17839, 17851,
  17863
]

/-- The `while d % 2 == 0: d //= 2; r += 1` loop of `miller_rabin`, with
explicit fuel.  Fuel `d` suffices for any positive `d`. -/
def splitTwos : Nat → Nat → Nat → Nat × Nat
  | 0, d, r => (d, r)
  | fuel+1, d, r => if d % 2 == 0 then splitTwos fuel (d / 2) (r + 1) else (d, r)

/-- The inner `for _ in range(1, r)` squaring loop of `miller_rabin`:
repeatedly replace `x` by `x*x % n`, succeeding when `n - 1` appears. -/
def mrLoop (n : Nat) : Nat → Nat → Bool
  | 0, _ => false
  | fuel+1, x =>
    let x2 := x * x % n
    if x2 == n - 1 then true else mrLoop n fuel x2

/-- One witness round of `miller_rabin`: compute `x = pow(a, d, n)`, accept
when `x` is `1` or `n-1`, otherwise run the squaring loop `r - 1` times. -/
def millerRabinOne (n d r a : Nat) : Bool :=
  let x := a ^ d % n
  if x == 1 || x == n - 1 then true
  else mrLoop n (r - 1) x

/-- `miller_rabin(n, k)` from the source (lines 337-358).  The `k` random
witnesses `a = random.randint(2, n-2)` are passed as the explicit list `ws`.
The `assert n > 3` guard is the `assertFailed` error; the two remaining
asserts restate facts the `while` loop guarantees and cannot fire.  The
`while d % 2 == 0` loop is `splitTwos`; each witness round is
`millerRabinOne`. -/
def miller_rabin (n : Nat) (ws : List Nat) : Except Err Bool :=
  if n ≤ 3 then .error .assertFailed
  else
    let dr := splitTwos (n - 1) (n - 1) 0
    .ok (ws.all (fun a => millerRabinOne n dr.1 dr.2 a))

/-- `is_prime(n, mr_rounds)` from the source (lines 361-368): answer by table
membership for `n` up to the last table entry, then trial-divide by every
table prime, then run Miller-Rabin on the random witnesses `ws`. -/
def is_prime (n : Nat) (ws : List Nat) : Except Err Bool :=
  if n ≤ first_primes.getLastD 0 then .ok (first_primes.contains n)
  else if first_primes.any (fun p => n % p == 0) then .ok false
  else miller_rabin n ws

/-- The primes below `142 = ⌈√20000⌉`: the reference trial-division base
for integers below `20000`. -/
def P34 : List Nat := [2, 3, 5, 7, 11, 13, 17, 19, 23, 29, 31, 37, 41, 43,
  47, 53, 59, 61, 67, 71, 73, 79, 83, 89, 97, 101, 103, 107, 109, 113, 127,
  131, 137, 139]

/-- Reference primality by trial division: `n` is prime exactly when
`2 ≤ n` and no prime of `P34` other than `n` itself divides `n`.  This is
the specification-side definition the prime table and `is_prime` are
measured against. -/
def smallPrime (n : Nat) : Bool :=
  decide (2 ≤ n) && P34.all (fun p => n == p || decide (n % p ≠ 0))

/-- Bounded sweep: `tableWalk fuel cur t` holds when `t` is exactly the
list of `smallPrime` numbers in `[cur, cur + fuel)`, walking both in step. -/
def tableWalk : Nat → Nat → List Nat → Bool
  | 0, _, t => t.isEmpty
  | fuel+1, cur, t =>
    if smallPrime cur then
      match t with
      | [] => false
      | p :: rest => p == cur && tableWalk fuel (cur+1) rest
    else tableWalk fuel (cur+1) t

def pchunk0 : List Nat := [
  2, 3, 5, 7, 11, 13, 17, 19, 23, 29, 31, 37, 41, 43, 47, 53, 59, 61, 67, 71,
  73, 79, 83, 89, 97, 101, 103, 107, 109, 113, 127, 131, 137, 139, 149, 151,
  157, 163, 167, 173, 179, 181, 191, 193, 197, 199, 211, 223, 227, 229, 233,
  239, 241, 251, 257, 263, 269, 271, 277, 281, 283, 293, 307, 311, 313, 317,
  331, 337, 347, 349, 353, 359, 367, 373, 379, 383, 389, 397, 401, 409, 419,
  421, 431, 433, 439, 443, 449, 457, 461, 463, 467, 479, 487, 491, 499, 503,
  509, 521, 523, 541, 547, 557, 563, 569, 571, 577, 587, 593, 599, 601, 607,
  613, 617, 619, 631, 641, 643, 647, 653, 659, 661, 673, 677, 683, 691, 701,
  709, 719, 727, 733, 739, 743, 751, 757, 761, 769, 773, 787, 797, 809, 811,
  821, 823, 827, 829, 839, 853, 857, 859, 863, 877, 881, 883, 887, 907, 911,
  919, 929, 937, 941, 947, 953, 967, 971, 977, 983, 991, 997, 1009, 1013,
  1019, 1021]

def pchunk1 : List Nat := [
  1031, 1033, 1039, 1049, 1051, 1061, 1063, 1069, 1087, 1091, 1093, 1097,
  1103, 1109, 1117, 1123, 1129, 1151, 1153, 1163, 1171, 1181, 1187, 1193,
  1201, 1213, 1217, 1223, 1229, 1231, 1237, 1249, 1259, 1277, 1279, 1283,
  1289, 1291, 1297, 1301, 1303, 1307, 1319, 1321, 1327, 1361, 1367, 1373,
  1381, 1399, 1409, 1423, 1427, 1429, 1433, 1439, 1447, 1451, 1453, 1459,
  1471, 1481, 1483, 1487, 1489, 1493, 1499, 1511, 1523, 1531, 1543, 1549,
  1553, 1559, 1567, 1571, 1579, 1583, 1597, 1601, 1607, 1609, 1613, 1619,
  1621, 1627, 1637, 1657, 1663, 1667, 1669, 1693, 1697, 1699, 1709, 1721,
  1723, 1733, 1741, 1747, 1753, 1759, 1777, 1783, 1787, 1789, 1801, 1811,
  1823, 1831, 1847, 1861, 1867, 1871, 1873, 1877, 1879, 1889, 1901, 1907,
  1913, 1931, 1933, 1949, 1951, 1973, 1979, 1987, 1993, 1997, 1999, 2003,
  2011, 2017, 2027, 2029, 2039]

def pchunk2 : List Nat := [
  2053, 2063, 2069, 2081, 2083, 2087, 2089, 2099, 2111, 2113, 2129, 2131,
  2137, 2141, 2143, 2153, 2161, 2179, 2203, 2207, 2213, 2221, 2237, 2239,
  2243, 2251, 2267, 2269, 2273, 2281, 2287, 2293, 2297, 2309, 2311, 2333,
  2339, 2341, 2347, 2351, 2357, 2371, 2377, 2381, 2383, 2389, 2393, 2399,
  2411, 2417, 2423, 2437, 2441, 2447, 2459, 2467, 2473, 2477, 2503, 2521,
  2531, 2539, 2543, 2549, 2551, 2557, 2579, 2591, 2593, 2609, 2617, 2621,
  2633, 2647, 2657, 2659, 2663, 2671, 2677, 2683, 2687, 2689, 2693, 2699,
  2707, 2711, 2713, 2719, 2729, 2731, 2741, 2749, 2753, 2767, 2777, 2789,
  2791, 2797, 2801, 2803, 2819, 2833, 2837, 2843, 2851, 2857, 2861, 2879,
  2887, 2897, 2903, 2909, 2917, 2927, 2939, 2953, 2957, 2963, 2969, 2971,
  2999, 3001, 3011, 3019, 3023, 3037, 3041, 3049, 3061, 3067]

def pchunk3 : List Nat := [
  3079, 3083, 3089, 3109, 3119, 3121, 3137, 3163, 3167, 3169, 3181, 3187,
  3191, 3203, 3209, 3217, 3221, 3229, 3251, 3253, 3257, 3259, 3271, 3299,
  3301, 3307, 3313, 3319, 3323, 3329, 3331, 3343, 3347, 3359, 3361, 3371,
  3373, 3389, 3391, 3407, 3413, 3433, 3449, 3457, 3461, 3463, 3467, 3469,
  3491, 3499, 3511, 3517, 3527, 3529, 3533, 3539, 3541, 3547, 3557, 3559,
  3571, 3581, 3583, 3593, 3607, 3613, 3617, 3623, 3631, 3637, 3643, 3659,
  3671, 3673, 3677, 3691, 3697, 3701, 3709, 3719, 3727, 3733, 3739, 3761,
  3767, 3769, 3779, 3793, 3797, 3803, 3821, 3823, 3833, 3847, 3851, 3853,
  3863, 3877, 3881, 3889, 3907, 3911, 3917, 3919, 3923, 3929, 3931, 3943,
  3947, 3967, 3989, 4001, 4003, 4007, 4013, 4019, 4021, 4027, 4049, 4051,
  4057, 4073, 4079, 4091, 4093]

def pchunk4 : List Nat := [
  4099, 4111, 4127, 4129, 4133, 4139, 4153, 4157, 4159, 4177, 4201, 4211,
  4217, 4219, 4229, 4231, 4241, 4243, 4253, 4259, 4261, 4271, 4273, 4283,
  4289, 4297, 4327, 4337, 4339, 4349, 4357, 4363, 4373, 4391, 4397, 4409,
  4421, 4423, 4441, 4447, 4451, 4457, 4463, 4481, 4483, 4493, 4507, 4513,
  4517, 4519, 4523, 4547, 4549, 4561, 4567, 4583, 4591, 4597, 4603, 4621,
  4637, 4639, 4643, 4649, 4651, 4657, 4663, 4673, 4679, 4691, 4703, 4721,
  4723, 4729, 4733, 4751, 4759, 4783, 4787, 4789, 4793, 4799, 4801, 4813,
  4817, 4831, 4861, 4871, 4877, 4889, 4903, 4909, 4919, 4931, 4933, 4937,
  4943, 4951, 4957, 4967, 4969, 4973, 4987, 4993, 4999, 5003, 5009, 5011,
  5021, 5023, 5039, 5051, 5059, 5077, 5081, 5087, 5099, 5101, 5107, 5113,
  5119]

def pchunk5 : List Nat := [
  5147, 5153, 5167, 5171, 5179, 5189, 5197, 5209, 5227, 5231, 5233, 5237,
  5261, 5273, 5279, 5281, 5297, 5303, 5309, 5323, 5333, 5347, 5351, 5381,
  5387, 5393, 5399, 5407, 5413, 5417, 5419, 5431, 5437, 5441, 5443, 5449,
  5471, 5477, 5479, 5483, 5501, 5503, 5507, 5519, 5521, 5527, 5531, 5557,
  5563, 5569, 5573, 5581, 5591, 5623, 5639, 5641, 5647, 5651, 5653, 5657,
  5659, 5669, 5683, 5689, 5693, 5701, 5711, 5717, 5737, 5741, 5743, 5749,
  5779, 5783, 5791, 5801, 5807, 5813, 5821, 5827, 5839, 5843, 5849, 5851,
  5857, 5861, 5867, 5869, 5879, 5881, 5897, 5903, 5923, 5927, 5939, 5953,
  5981, 5987, 6007, 6011, 6029, 6037, 6043, 6047, 6053, 6067, 6073, 6079,
  6089, 6091, 6101, 6113, 6121, 6131, 6133, 6143]

def pchunk6 : List Nat := [
  6151, 6163, 6173, 6197, 6199, 6203, 6211, 6217, 6221, 6229, 6247, 6257,
  6263, 6269, 6271, 6277, 6287, 6299, 6301, 6311, 6317, 6323, 6329, 6337,
  6343, 6353, 6359, 6361, 6367, 6373, 6379, 6389, 6397, 6421, 6427, 6449,
  6451, 6469, 6473, 6481, 6491, 6521, 6529, 6547, 6551, 6553, 6563, 6569,
  6571, 6577, 6581, 6599, 6607, 6619, 6637, 6653, 6659, 6661, 6673, 6679,
  6689, 6691, 6701, 6703, 6709, 6719, 6733, 6737, 6761, 6763, 6779, 6781,
  6791, 6793, 6803, 6823, 6827, 6829, 6833, 6841, 6857, 6863, 6869, 6871,
  6883, 6899, 6907, 6911, 6917, 6947, 6949, 6959, 6961, 6967, 6971, 6977,
  6983, 6991, 6997, 7001, 7013, 7019, 7027, 7039, 7043, 7057, 7069, 7079,
  7103, 7109, 7121, 7127, 7129, 7151, 7159]

def pchunk7 : List Nat := [
  7177, 7187, 7193, 7207, 7211, 7213, 7219, 7229, 7237, 7243, 7247, 7253,
  7283, 7297, 7307, 7309, 7321, 7331, 7333, 7349, 7351, 7369, 7393, 7411,
  7417, 7433, 7451, 7457, 7459, 7477, 7481, 7487, 7489, 7499, 7507, 7517,
  7523, 7529, 7537, 7541, 7547, 7549, 7559, 7561, 7573, 7577, 7583, 7589,
  7591, 7603, 7607, 7621, 7639, 7643, 7649, 7669, 7673, 7681, 7687, 7691,
  7699, 7703, 7717, 7723, 7727, 7741, 7753, 7757, 7759, 7789, 7793, 7817,
  7823, 7829, 7841, 7853, 7867, 7873, 7877, 7879, 7883, 7901, 7907, 7919,
  7927, 7933, 7937, 7949, 7951, 7963, 7993, 8009, 8011, 8017, 8039, 8053,
  8059, 8069, 8081, 8087, 8089, 8093, 8101, 8111, 8117, 8123, 8147, 8161,
  8167, 8171, 8179, 8191]

def pchunk8 : List Nat := [
  8209, 8219, 8221, 8231, 8233, 8237, 8243, 8263, 8269, 8273, 8287, 8291,
  8293, 8297, 8311, 8317, 8329, 8353, 8363, 8369, 8377, 8387, 8389, 8419,
  8423, 8429, 8431, 8443, 8447, 8461, 8467, 8501, 8513, 8521, 8527, 8537,
  8539, 8543, 8563, 8573, 8581, 8597, 8599, 8609, 8623, 8627, 8629, 8641,
  8647, 8663, 8669, 8677, 8681, 8689, 8693, 8699, 8707, 8713, 8719, 8731,
  8737, 8741, 8747, 8753, 8761, 8779, 8783, 8803, 8807, 8819, 8821, 8831,
  8837, 8839, 8849, 8861, 8863, 8867, 8887, 8893, 8923, 8929, 8933, 8941,
  8951, 8963, 8969, 8971, 8999, 9001, 9007, 9011, 9013, 9029, 9041, 9043,
  9049, 9059, 9067, 9091, 9103, 9109, 9127, 9133, 9137, 9151, 9157, 9161,
  9173, 9181, 9187, 9199, 9203, 9209]

def pchunk9 : List Nat := [
  9221, 9227, 9239, 9241, 9257, 9277, 9281, 9283, 9293, 9311, 9319, 9323,
  9337, 9341, 9343, 9349, 9371, 9377, 9391, 9397, 9403, 9413, 9419, 9421,
  9431, 9433, 9437, 9439, 9461, 9463, 9467, 9473, 9479, 9491, 9497, 9511,
  9521, 9533, 9539, 9547, 9551, 9587, 9601, 9613, 9619, 9623, 9629, 9631,
  9643, 9649, 9661, 9677, 9679, 9689, 9697, 9719, 9721, 9733, 9739, 9743,
  9749, 9767, 9769, 9781, 9787, 9791, 9803, 9811, 9817, 9829, 9833, 9839,
  9851, 9857, 9859, 9871, 9883, 9887, 9901, 9907, 9923, 9929, 9931, 9941,
  9949, 9967, 9973, 10007, 10009, 10037, 10039, 10061, 10067, 10069, 10079,
  10091, 10093, 10099, 10103, 10111, 10133, 10139, 10141, 10151, 10159,
  10163, 10169, 10177, 10181, 10193, 10211, 10223]

def pchunk10 : List Nat := [
  10243, 10247, 10253, 10259, 10267, 10271, 10273, 10289, 10301, 10303,
  10313, 10321, 10331, 10333, 10337, 10343, 10357, 10369, 10391, 10399,
  10427, 10429, 10433, 10453, 10457, 10459, 10463, 10477, 10487, 10499,
  10501, 10513, 10529, 10531, 10559, 10567, 10589, 10597, 10601, 10607,
  10613, 10627, 10631, 10639, 10651, 10657, 10663, 10667, 10687, 10691,
  10709, 10711, 10723, 10729, 10733, 10739, 10753, 10771, 10781, 10789,
  10799, 10831, 10837, 10847, 10853, 10859, 10861, 10867, 10883, 10889,
  10891, 10903, 10909, 10937, 10939, 10949, 10957, 10973, 10979, 10987,
  10993, 11003, 11027, 11047, 11057, 11059, 11069, 11071, 11083, 11087,
  11093, 11113, 11117, 11119, 11131, 11149, 11159, 11161, 11171, 11173,
  11177, 11197, 11213, 11239, 11243, 11251, 11257, 11261]

def pchunk11 : List Nat := [
  11273, 11279, 11287, 11299, 11311, 11317, 11321, 11329, 11351, 11353,
  11369, 11383, 11393, 11399, 11411, 11423, 11437, 11443, 11447, 11467,
  11471, 11483, 11489, 11491, 11497, 11503, 11519, 11527, 11549, 11551,
  11579, 11587, 11593, 11597, 11617, 11621, 11633, 11657, 11677, 11681,
  11689, 11699, 11701, 11717, 11719, 11731, 11743, 11777, 11779, 11783,
  11789, 11801, 11807, 11813, 11821, 11827, 11831, 11833, 11839, 11863,
  11867, 11887, 11897, 11903, 11909, 11923, 11927, 11933, 11939, 11941,
  11953, 11959, 11969, 11971, 11981, 11987, 12007, 12011, 12037, 12041,
  12043, 12049, 12071, 12073, 12097, 12101, 12107, 12109, 12113, 12119,
  12143, 12149, 12157, 12161, 12163, 12197, 12203, 12211, 12227, 12239,
  12241, 12251, 12253, 12263, 12269, 12277, 12281]

def pchunk12 : List Nat := [
  12289, 12301, 12323, 12329, 12343, 12347, 12373, 12377, 12379, 12391,
  12401, 12409, 12413, 12421, 12433, 12437, 12451, 12457, 12473, 12479,
  12487, 12491, 12497, 12503, 12511, 12517, 12527, 12539, 12541, 12547,
  12553, 12569, 12577, 12583, 12589, 12601, 12611, 12613, 12619, 12637,
  12641, 12647, 12653, 12659, 12671, 12689, 12697, 12703, 12713, 12721,
  12739, 12743, 12757, 12763, 12781, 12791, 12799, 12809, 12821, 12823,
  12829, 12841, 12853, 12889, 12893, 12899, 12907, 12911, 12917, 12919,
  12923, 12941, 12953, 12959, 12967, 12973, 12979, 12983, 13001, 13003,
  13007, 13009, 13033, 13037, 13043, 13049, 13063, 13093, 13099, 13103,
  13109, 13121, 13127, 13147, 13151, 13159, 13163, 13171, 13177, 13183,
  13187, 13217, 13219, 13229, 13241, 13249, 13259, 13267, 13291, 13297,
  13309]

def pchunk13 : List Nat := [
  13313, 13327, 13331, 13337, 13339, 13367, 13381, 13397, 13399, 13411,
  13417, 13421, 13441, 13451, 13457, 13463, 13469, 13477, 13487, 13499,
  13513, 13523, 13537, 13553, 13567, 13577, 13591, 13597, 13613, 13619,
  13627, 13633, 13649, 13669, 13679, 13681, 13687, 13691, 13693, 13697,
  13709, 13711, 13721, 13723, 13729, 13751, 13757, 13759, 13763, 13781,
  13789, 13799, 13807, 13829, 13831, 13841, 13859, 13873, 13877, 13879,
  13883, 13901, 13903, 13907, 13913, 13921, 13931, 13933, 13963, 13967,
  13997, 13999, 14009, 14011, 14029, 14033, 14051, 14057, 14071, 14081,
  14083, 14087, 14107, 14143, 14149, 14153, 14159, 14173, 14177, 14197,
  14207, 14221, 14243, 14249, 14251, 14281, 14293, 14303, 14321, 14323,
  14327]

def pchunk14 : List Nat := [
  14341, 14347, 14369, 14387, 14389, 14401, 14407, 14411, 14419, 14423,
  14431, 14437, 14447, 14449, 14461, 14479, 14489, 14503, 14519, 14533,
  14537, 14543, 14549, 14551, 14557, 14561, 14563, 14591, 14593, 14621,
  14627, 14629, 14633, 14639, 14653, 14657, 14669, 14683, 14699, 14713,
  14717, 14723, 14731, 14737, 14741, 14747, 14753, 14759, 14767, 14771,
  14779, 14783, 14797, 14813, 14821, 14827, 14831, 14843, 14851, 14867,
  14869, 14879, 14887, 14891, 14897, 14923, 14929, 14939, 14947, 14951,
  14957, 14969, 14983, 15013, 15017, 15031, 15053, 15061, 15073, 15077,
  15083, 15091, 15101, 15107, 15121, 15131, 15137, 15139, 15149, 15161,
  15173, 15187, 15193, 15199, 15217, 15227, 15233, 15241, 15259, 15263,
  15269, 15271, 15277, 15287, 15289, 15299, 15307, 15313, 15319, 15329,
  15331, 15349, 15359]

def pchunk15 : List Nat := [
  15361, 15373, 15377, 15383, 15391, 15401, 15413, 15427, 15439, 15443,
  15451, 15461, 15467, 15473, 15493, 15497, 15511, 15527, 15541, 15551,
  15559, 15569, 15581, 15583, 15601, 15607, 15619, 15629, 15641, 15643,
  15647, 15649, 15661, 15667, 15671, 15679, 15683, 15727, 15731, 15733,
  15737, 15739, 15749, 15761, 15767, 15773, 15787, 15791, 15797, 15803,
  15809, 15817, 15823, 15859, 15877, 15881, 15887, 15889, 15901, 15907,
  15913, 15919, 15923, 15937, 15959, 15971, 15973, 15991, 16001, 16007,
  16033, 16057, 16061, 16063, 16067, 16069, 16073, 16087, 16091, 16097,
  16103, 16111, 16127, 16139, 16141, 16183, 16187, 16189, 16193, 16217,
  16223, 16229, 16231, 16249, 16253, 16267, 16273, 16301, 16319, 16333,
  16339, 16349, 16361, 16363, 16369, 16381]

def pchunk16 : List Nat := [
  16411, 16417, 16421, 16427, 16433, 16447, 16451, 16453, 16477, 16481,
  16487, 16493, 16519, 16529, 16547, 16553, 16561, 16567, 16573, 16603,
  16607, 16619, 16631, 16633, 16649, 16651, 16657, 16661, 16673, 16691,
  16693, 16699, 16703, 16729, 16741, 16747, 16759, 16763, 16787, 16811,
  16823, 16829, 16831, 16843, 16871, 16879, 16883, 16889, 16901, 16903,
  16921, 16927, 16931, 16937, 16943, 16963, 16979, 16981, 16987, 16993,
  17011, 17021, 17027, 17029, 17033, 17041, 17047, 17053, 17077, 17093,
  17099, 17107, 17117, 17123, 17137, 17159, 17167, 17183, 17189, 17191,
  17203, 17207, 17209, 17231, 17239, 17257, 17291, 17293, 17299, 17317,
  17321, 17327, 17333, 17341, 17351, 17359, 17377, 17383, 17387, 17389,
  17393, 17401]

def pchunk17 : List Nat := [
  17417, 17419, 17431, 17443, 17449, 17467, 17471, 17477, 17483, 17489,
  17491, 17497, 17509, 17519, 17539, 17551, 17569, 17573, 17579, 17581,
  17597, 17599, 17609, 17623, 17627, 17657, 17659, 17669, 17681, 17683,
  17707, 17713, 17729, 17737, 17747, 17749, 17761, 17783, 17789, 17791,
  17807, 17827, 17837, 17839, 17851, 17863]

section EEACorrectness

/-- One step of the Euclidean remainder chain preserves the gcd. -/
theorem gcd_emod_step (r0 r1 : Int) : Int.gcd r1 (r0 % r1) = Int.gcd r0 r1 := by
  apply Nat.dvd_antisymm
  · have h1 : (Int.gcd r1 (r0 % r1) : Int) ∣ r0 := by
      have hdef : r0 % r1 = r0 - r1 * (r0 / r1) := Int.emod_def r0 r1
      have : (Int.gcd r1 (r0 % r1) : Int) ∣ r0 % r1 + r1 * (r0 / r1) :=
        dvd_add Int.gcd_dvd_right (Dvd.dvd.mul_right Int.gcd_dvd_left _)
      simpa [hdef] using this
    exact Int.natCast_dvd_natCast.mp (Int.dvd_gcd h1 Int.gcd_dvd_left)
  · have h2 : (Int.gcd r0 r1 : Int) ∣ r0 % r1 := by
      rw [Int.emod_def]
      exact dvd_sub Int.gcd_dvd_left (Dvd.dvd.mul_right Int.gcd_dvd_right _)
    exact Int.natCast_dvd_natCast.mp (Int.dvd_gcd Int.gcd_dvd_right h2)

theorem eeaLoop_spec (a b : Int) : ∀ (fuel : Nat) (r0 s0 t0 r1 s1 t1 : Int),
    0 ≤ r0 → 0 ≤ r1 → r1 < (fuel : Int) →
    r0 = a * s0 + b * t0 → r1 = a * s1 + b * t1 →
    (eeaLoop fuel (r0, s0, t0) (r1, s1, t1)).1 =
      (Int.gcd r0 r1 : Int) ∧
    (eeaLoop fuel (r0, s0, t0) (r1, s1, t1)).1 =
      a * (eeaLoop fuel (r0, s0, t0) (r1, s1, t1)).2.1 +
      b * (eeaLoop fuel (r0, s0, t0) (r1, s1, t1)).2.2 := by
  intro fuel
  induction fuel with
  | zero =>
    intro r0 s0 t0 r1 s1 t1 h0 h1 hlt _ _
    exact absurd (lt_of_le_of_lt h1 hlt) (by norm_num)
  | succ fuel ih =>
    intro r0 s0 t0 r1 s1 t1 h0 h1 hlt hb0 hb1
    by_cases hz : r1 = 0
    · subst hz
      simp only [eeaLoop, if_pos rfl]
      constructor
      · simp [Int.gcd, Int.natAbs_of_nonneg h0]
      · exact hb0
    · have hpos : 0 < r1 := lt_of_le_of_ne h1 (Ne.symm hz)
      have hstep : eeaLoop (fuel + 1) (r0, s0, t0) (r1, s1, t1) =
          eeaLoop fuel (r1, s1, t1)
            (r0 - r0.fdiv r1 * r1, s0 - r0.fdiv r1 * s1, t0 - r0.fdiv r1 * t1) := by
        simp [eeaLoop, hz]
      have hfd : r0.fdiv r1 = r0 / r1 := Int.fdiv_eq_ediv r0 (le_of_lt hpos)
      have hr2 : r0 - r0.fdiv r1 * r1 = r0 % r1 := by
        rw [hfd, Int.emod_def, mul_comm]
      have h2nn : 0 ≤ r0 - r0.fdiv r1 * r1 := by
        rw [hr2]; exact Int.emod_nonneg r0 hz
      have h2lt : r0 - r0.fdiv r1 * r1 < r1 := by
        rw [hr2]; exact Int.emod_lt_of_pos r0 hpos
      have h2fuel : r0 - r0.fdiv r1 * r1 < (fuel : Int) := by
        have : r1 < ((fuel : Int) + 1) := by exact_mod_cast hlt
        omega
      have hbez : r0 - r0.fdiv r1 * r1 =
          a * (s0 - r0.fdiv r1 * s1) + b * (t0 - r0.fdiv r1 * t1) := by
        rw [hb0, hb1]; ring
      have := ih r1 s1 t1 (r0 - r0.fdiv r1 * r1) (s0 - r0.fdiv r1 * s1)
        (t0 - r0.fdiv r1 * t1) h1 h2nn h2fuel hb1 hbez
      rw [hstep]
      refine ⟨?_, this.2⟩
      rw [this.1, hr2]
      norm_cast
      exact gcd_emod_step r0 r1

theorem extended_euclidean_algorithm_spec {a b : Int} (ha : 0 ≤ a) (hb : 0 < b) :
    (extended_euclidean_algorithm a b).1 = (Int.gcd a b : Int) ∧
    (extended_euclidean_algorithm a b).1 =
      a * (extended_euclidean_algorithm a b).2.1 +
      b * (extended_euclidean_algorithm a b).2.2 := by
  have hlt : b < ((b.natAbs + 1 : Nat) : Int) := by
    have h1 : ((b.natAbs : Nat) : Int) = b := Int.natAbs_of_nonneg (le_of_lt hb)
    rw [Nat.cast_add, h1]
    omega
  exact eeaLoop_spec a b (b.natAbs + 1) a 1 0 b 0 1 ha (le_of_lt hb) hlt
    (by ring) (by ring)

/-- `invert` succeeds on coprime inputs, and its result is the inverse of `a`
in the canonical range `[0, b)`. -/
theorem invert_total {a b : Int} (ha : 0 ≤ a) (hb : 0 < b)
    (h : Int.gcd a b = 1) :
    ∃ v, invert a b = .ok v ∧ a * v ≡ 1 [ZMOD b] ∧ 0 ≤ v ∧ v < b := by
  obtain ⟨hg, hbez⟩ := extended_euclidean_algorithm_spec ha hb
  rcases hE : extended_euclidean_algorithm a b with ⟨r, s, t⟩
  rw [hE] at hg hbez
  simp only at hg hbez
  have hr1 : r = 1 := by rw [hg, h]; norm_num
  subst hr1
  have hbnn : (0 : Int) ≤ b := le_of_lt hb
  have hv1 : 0 ≤ s.fmod b := by
    rw [Int.fmod_eq_emod s hbnn]
    exact Int.emod_nonneg s (ne_of_gt hb)
  have hv2 : s.fmod b < b := by
    rw [Int.fmod_eq_emod s hbnn]
    exact Int.emod_lt_of_pos s hb
  have hmod : a * s.fmod b ≡ 1 [ZMOD b] := by
    rw [Int.fmod_eq_emod s hbnn]
    have h1 : a * (s % b) ≡ a * s [ZMOD b] := by
      refine Int.ModEq.mul_left a ?_
      show s % b % b = s % b
      exact Int.emod_emod_of_dvd s dvd_rfl
    refine h1.trans (Int.modEq_iff_dvd.mpr ⟨t, by linarith⟩)
  refine ⟨s.fmod b, ?_, hmod, hv1, hv2⟩
  simp [invert, hE]

/-- Inverses mod `b` are unique in the canonical range. -/
theorem mod_inverse_unique {a b v w : Int} (_hb : 0 < b)
    (hv : a * v ≡ 1 [ZMOD b]) (hw : a * w ≡ 1 [ZMOD b])
    (hv1 : 0 ≤ v) (hv2 : v < b) (hw1 : 0 ≤ w) (hw2 : w < b) : v = w := by
  have h1 : v * (a * w) ≡ v * 1 [ZMOD b] := Int.ModEq.mul_left v hw
  have h2 : w * (a * v) ≡ w * 1 [ZMOD b] := Int.ModEq.mul_left w hv
  have h3 : v ≡ w [ZMOD b] := by
    calc v ≡ v * (a * w) [ZMOD b] := by simpa using h1.symm
      _ = w * (a * v) := by ring
      _ ≡ w [ZMOD b] := by simpa using h2
  have := h3
  unfold Int.ModEq at this
  rwa [Int.emod_eq_of_lt hv1 hv2, Int.emod_eq_of_lt hw1 hw2] at this

end EEACorrectness

section Primality

set_option maxRecDepth 60000

theorem P34_complete : ∀ p, p < 142 → 2 ≤ p →
    (∀ m, m < p → 2 ≤ m → p % m ≠ 0) → p ∈ P34 := by decide

theorem P34_primes : ∀ p ∈ P34, Nat.Prime p := by decide

theorem mem_P34_of_prime {p : Nat} (hp : Nat.Prime p) (hlt : p < 142) :
    p ∈ P34 := by
  refine P34_complete p hlt hp.two_le (fun m hm hm2 hmod => ?_)
  have hdvd : m ∣ p := Nat.dvd_of_mod_eq_zero hmod
  have := (Nat.Prime.eq_one_or_self_of_dvd hp m hdvd)
  omega

theorem smallPrime_iff {n : Nat} (hn : n < 20000) :
    smallPrime n = true ↔ Nat.Prime n := by
  unfold smallPrime
  rw [Bool.and_eq_true, decide_eq_true_eq, List.all_eq_true]
  constructor
  · rintro ⟨h2, hall⟩
    by_contra hnp
    have hne1 : n ≠ 1 := by omega
    have hmf : (n.minFac).Prime := Nat.minFac_prime hne1
    have hsq : n.minFac ^ 2 ≤ n := Nat.minFac_sq_le_self (by omega) hnp
    have hlt : n.minFac < 142 := by
      by_contra hge
      push_neg at hge
      have : 142 ^ 2 ≤ n.minFac ^ 2 := Nat.pow_le_pow_left hge 2
      omega
    have hmem : n.minFac ∈ P34 := mem_P34_of_prime hmf hlt
    have := hall _ hmem
    rw [Bool.or_eq_true, beq_iff_eq, decide_eq_true_eq] at this
    have hdvd : n.minFac ∣ n := Nat.minFac_dvd n
    rcases this with heq | hmod
    · rw [heq] at hnp
      exact hnp hmf
    · exact hmod (Nat.mod_eq_zero_of_dvd hdvd)
  · intro hp
    refine ⟨hp.two_le, fun p hmem => ?_⟩
    rw [Bool.or_eq_true, beq_iff_eq, decide_eq_true_eq]
    by_cases heq : n = p
    · exact Or.inl heq
    · refine Or.inr (fun hmod => ?_)
      have hpp : Nat.Prime p := P34_primes p hmem
      have hdvd : p ∣ n := Nat.dvd_of_mod_eq_zero hmod
      exact heq ((Nat.prime_dvd_prime_iff_eq hpp hp).mp hdvd).symm

theorem splitTwos_spec : ∀ fuel d r, 0 < d → d ≤ fuel →
    (splitTwos fuel d r).1 % 2 = 1 ∧
    (splitTwos fuel d r).1 * 2 ^ (splitTwos fuel d r).2 = d * 2 ^ r := by
  intro fuel
  induction fuel with
  | zero => intro d r h0 hle; omega
  | succ f ih =>
    intro d r h0 hle
    unfold splitTwos
    by_cases he : d % 2 = 0
    · rw [if_pos (by simpa using he)]
      have h2 : 0 < d / 2 := by omega
      have h3 : d / 2 ≤ f := by omega
      obtain ⟨ho, heq⟩ := ih (d / 2) (r + 1) h2 h3
      refine ⟨ho, ?_⟩
      rw [heq, pow_succ]
      have h4 : d / 2 * 2 = d := by omega
      calc d / 2 * (2 ^ r * 2) = d / 2 * 2 * 2 ^ r := by ring
        _ = d * 2 ^ r := by rw [h4]
    · rw [if_neg (by simpa using he)]
      exact ⟨by omega, rfl⟩

theorem mrLoop_true (n : Nat) : ∀ fuel x j, 1 ≤ j → j ≤ fuel →
    x ^ 2 ^ j % n = n - 1 → mrLoop n fuel x = true := by
  intro fuel
  induction fuel with
  | zero => intro x j h1 h2 _; omega
  | succ f ih =>
    intro x j h1 h2 hx
    show (if x * x % n == n - 1 then true else mrLoop n f (x * x % n)) = true
    by_cases hcase : x * x % n == n - 1
    · rw [if_pos hcase]
    · rw [if_neg hcase]
      have hj2 : 2 ≤ j := by
        by_contra hlt
        have : j = 1 := by omega
        subst this
        have : x ^ 2 ^ 1 = x * x := by ring
        rw [this] at hx
        exact hcase (by simpa using hx)
      refine ih (x * x % n) (j - 1) (by omega) (by omega) ?_
      have h1' : (x * x % n) ^ 2 ^ (j - 1) % n = (x * x) ^ 2 ^ (j - 1) % n :=
        (Nat.pow_mod _ _ _).symm
      rw [h1']
      have h2' : (x * x) ^ 2 ^ (j - 1) = x ^ 2 ^ j := by
        rw [show x * x = x ^ 2 by ring, ← pow_mul]
        congr 1
        have : 2 ^ j = 2 ^ (1 + (j - 1)) := by congr 1; omega
        rw [this, pow_add]
        ring
      rw [h2', hx]

theorem sqrt_chain {p : Nat} [Fact p.Prime] :
    ∀ r (b : ZMod p), b ^ 2 ^ r = 1 → b = 1 ∨ ∃ j, j < r ∧ b ^ 2 ^ j = -1 := by
  intro r
  induction r with
  | zero => intro b hb; left; simpa using hb
  | succ t ih =>
    intro b hb
    have hsq : b ^ 2 ^ t * (b ^ 2 ^ t) = 1 := by
      rw [← pow_add]
      rw [show 2 ^ t + 2 ^ t = 2 ^ (t + 1) by ring]
      exact hb
    rcases mul_self_eq_one_iff.mp hsq with h1 | hm1
    · rcases ih b h1 with h | ⟨j, hj, hjv⟩
      · exact Or.inl h
      · exact Or.inr ⟨j, by omega, hjv⟩
    · exact Or.inr ⟨t, by omega, hm1⟩

theorem millerRabinOne_prime {n d r a : Nat} (hp : Nat.Prime n)
    (hdr : d * 2 ^ r = n - 1) (ha2 : 2 ≤ a) (han : a ≤ n - 2) :
    millerRabinOne n d r a = true := by
  haveI : Fact n.Prime := ⟨hp⟩
  have hn2 : 2 ≤ n := hp.two_le
  have hn3 : 4 ≤ n := by omega
  have haz : (a : ZMod n) ≠ 0 := by
    rw [Ne, ZMod.natCast_zmod_eq_zero_iff_dvd]
    intro hdvd
    have := Nat.le_of_dvd (by omega) hdvd
    omega
  have hfer : (a : ZMod n) ^ (n - 1) = 1 := ZMod.pow_card_sub_one_eq_one haz
  have hb : ((a : ZMod n) ^ d) ^ 2 ^ r = 1 := by
    rw [← pow_mul, hdr]
    exact hfer
  have hcast1 : ∀ m : Nat, ((a ^ m : Nat) : ZMod n) = (a : ZMod n) ^ m := by
    intro m; push_cast; ring
  have hneg : ((n - 1 : Nat) : ZMod n) = -1 := by
    rw [Nat.cast_sub (by omega : 1 ≤ n), ZMod.natCast_self]
    simp
  have hpowmod : ∀ m : Nat, ((a : ZMod n) ^ m = -1) → a ^ m % n = n - 1 := by
    intro m hm
    have hc : ((a ^ m : Nat) : ZMod n) = ((n - 1 : Nat) : ZMod n) := by
      rw [hcast1, hneg]; exact hm
    have hmod : a ^ m % n = (n - 1) % n := (ZMod.natCast_eq_natCast_iff _ _ _).mp hc
    have h9 : (n - 1) % n = n - 1 := Nat.mod_eq_of_lt (by omega)
    rwa [h9] at hmod
  rcases sqrt_chain r ((a : ZMod n) ^ d) hb with h1 | ⟨j, hjr, hjm⟩
  · have hc : ((a ^ d : Nat) : ZMod n) = ((1 : Nat) : ZMod n) := by
      rw [hcast1]; simpa using h1
    have hmod : a ^ d % n = 1 % n := (ZMod.natCast_eq_natCast_iff _ _ _).mp hc
    have h9 : 1 % n = 1 := Nat.mod_eq_of_lt (by omega)
    rw [h9] at hmod
    show (if (a ^ d % n == 1 || a ^ d % n == n - 1) then true
          else mrLoop n (r - 1) (a ^ d % n)) = true
    rw [hmod]
    simp
  · by_cases hj0 : j = 0
    · subst hj0
      have hd : (a : ZMod n) ^ d = -1 := by simpa using hjm
      have hmod := hpowmod d hd
      show (if (a ^ d % n == 1 || a ^ d % n == n - 1) then true
            else mrLoop n (r - 1) (a ^ d % n)) = true
      rw [hmod]
      have : ¬ (n - 1 == 1 || n - 1 == n - 1) = false := by simp
      simp
    · have hj1 : 1 ≤ j := by omega
      have hdj : (a : ZMod n) ^ (d * 2 ^ j) = -1 := by
        rw [pow_mul]; exact hjm
      have hmodj := hpowmod (d * 2 ^ j) hdj
      show (if (a ^ d % n == 1 || a ^ d % n == n - 1) then true
            else mrLoop n (r - 1) (a ^ d % n)) = true
      by_cases hguard : (a ^ d % n == 1 || a ^ d % n == n - 1)
      · rw [if_pos hguard]
      · rw [if_neg hguard]
        refine mrLoop_true n (r - 1) (a ^ d % n) j hj1 (by omega) ?_
        rw [← Nat.pow_mod, ← pow_mul]
        exact hmodj

theorem walkChunk0 : tableWalk 1024 0 pchunk0 = true := by decide

theorem walkChunk1 : tableWalk 1024 1024 pchunk1 = true := by decide

theorem walkChunk2 : tableWalk 1024 2048 pchunk2 = true := by decide

theorem walkChunk3 : tableWalk 1024 3072 pchunk3 = true := by decide

theorem walkChunk4 : tableWalk 1024 4096 pchunk4 = true := by decide

theorem walkChunk5 : tableWalk 1024 5120 pchunk5 = true := by decide

theorem walkChunk6 : tableWalk 1024 6144 pchunk6 = true := by decide

theorem walkChunk7 : tableWalk 1024 7168 pchunk7 = true := by decide

theorem walkChunk8 : tableWalk 1024 8192 pchunk8 = true := by decide

theorem walkChunk9 : tableWalk 1024 9216 pchunk9 = true := by decide

theorem walkChunk10 : tableWalk 1024 10240 pchunk10 = true := by decide

theorem walkChunk11 : tableWalk 1024 11264 pchunk11 = true := by decide

theorem walkChunk12 : tableWalk 1024 12288 pchunk12 = true := by decide

theorem walkChunk13 : tableWalk 1024 13312 pchunk13 = true := by decide

theorem walkChunk14 : tableWalk 1024 14336 pchunk14 = true := by decide

theorem walkChunk15 : tableWalk 1024 15360 pchunk15 = true := by decide

theorem walkChunk16 : tableWalk 1024 16384 pchunk16 = true := by decide

theorem walkChunk17 : tableWalk 456 17408 pchunk17 = true := by decide

theorem tableWalk_spec : ∀ fuel cur t, tableWalk fuel cur t = true →
    t = (List.range' cur fuel).filter (fun n => smallPrime n) := by
  intro fuel
  induction fuel with
  | zero =>
    intro cur t h
    have h' : t.isEmpty = true := h
    simp only [List.range']
    exact List.isEmpty_iff.mp h'
  | succ f ih =>
    intro cur t h
    rw [List.range'_succ, List.filter_cons]
    unfold tableWalk at h
    by_cases hsp : smallPrime cur = true
    · rw [if_pos hsp] at h ⊢
      cases t with
      | nil => simp at h
      | cons p rest =>
        rw [Bool.and_eq_true, beq_iff_eq] at h
        obtain ⟨hpc, hw⟩ := h
        rw [hpc, ih (cur+1) rest hw]
    · rw [if_neg hsp] at h ⊢
      exact ih (cur+1) t h

theorem rangeSplit16 : List.range' 16384 1480 = List.range' 16384 1024 ++ (List.range' 17408 456) := by
  have h := List.range'_append_1 16384 1024 456
  norm_num at h
  exact h.symm

theorem rangeSplit15 : List.range' 15360 2504 = List.range' 15360 1024 ++ (List.range' 16384 1024 ++ (List.range' 17408 456)) := by
  rw [← rangeSplit16]
  have h := List.range'_append_1 15360 1024 1480
  norm_num at h
  exact h.symm

theorem rangeSplit14 : List.range' 14336 3528 = List.range' 14336 1024 ++ (List.range' 15360 1024 ++ (List.range' 16384 1024 ++ (List.range' 17408 456))) := by
  rw [← rangeSplit15]
  have h := List.range'_append_1 14336 1024 2504
  norm_num at h
  exact h.symm

theorem rangeSplit13 : List.range' 13312 4552 = List.range' 13312 1024 ++ (List.range' 14336 1024 ++ (List.range' 15360 1024 ++ (List.range' 16384 1024 ++ (List.range' 17408 456)))) := by
  rw [← rangeSplit14]
  have h := List.range'_append_1 13312 1024 3528
  norm_num at h
  exact h.symm

theorem rangeSplit12 : List.range' 12288 5576 = List.range' 12288 1024 ++ (List.range' 13312 1024 ++ (List.range' 14336 1024 ++ (List.range' 15360 1024 ++ (List.range' 16384 1024 ++ (List.range' 17408 456))))) := by
  rw [← rangeSplit13]
  have h := List.range'_append_1 12288 1024 4552
  norm_num at h
  exact h.symm

theorem rangeSplit11 : List.range' 11264 6600 = List.range' 11264 1024 ++ (List.range' 12288 1024 ++ (List.range' 13312 1024 ++ (List.range' 14336 1024 ++ (List.range' 15360 1024 ++ (List.range' 16384 1024 ++ (List.range' 17408 456)))))) := by
  rw [← rangeSplit12]
  have h := List.range'_append_1 11264 1024 5576
  norm_num at h
  exact h.symm

theorem rangeSplit10 : List.range' 10240 7624 = List.range' 10240 1024 ++ (List.range' 11264 1024 ++ (List.range' 12288 1024 ++ (List.range' 13312 1024 ++ (List.range' 14336 1024 ++ (List.range' 15360 1024 ++ (List.range' 16384 1024 ++ (List.range' 17408 456))))))) := by
  rw [← rangeSplit11]
  have h := List.range'_append_1 10240 1024 6600
  norm_num at h
  exact h.symm

theorem rangeSplit9 : List.range' 9216 8648 = List.range' 9216 1024 ++ (List.range' 10240 1024 ++ (List.range' 11264 1024 ++ (List.range' 12288 1024 ++ (List.range' 13312 1024 ++ (List.range' 14336 1024 ++ (List.range' 15360 1024 ++ (List.range' 16384 1024 ++ (List.range' 17408 456)))))))) := by
  rw [← rangeSplit10]
  have h := List.range'_append_1 9216 1024 7624
  norm_num at h
  exact h.symm

theorem rangeSplit8 : List.range' 8192 9672 = List.range' 8192 1024 ++ (List.range' 9216 1024 ++ (List.range' 10240 1024 ++ (List.range' 11264 1024 ++ (List.range' 12288 1024 ++ (List.range' 13312 1024 ++ (List.range' 14336 1024 ++ (List.range' 15360 1024 ++ (List.range' 16384 1024 ++ (List.range' 17408 456))))))))) := by
  rw [← rangeSplit9]
  have h := List.range'_append_1 8192 1024 8648
  norm_num at h
  exact h.symm

theorem rangeSplit7 : List.range' 7168 10696 = List.range' 7168 1024 ++ (List.range' 8192 1024 ++ (List.range' 9216 1024 ++ (List.range' 10240 1024 ++ (List.range' 11264 1024 ++ (List.range' 12288 1024 ++ (List.range' 13312 1024 ++ (List.range' 14336 1024 ++ (List.range' 15360 1024 ++ (List.range' 16384 1024 ++ (List.range' 17408 456)))))))))) := by
  rw [← rangeSplit8]
  have h := List.range'_append_1 7168 1024 9672
  norm_num at h
  exact h.symm

theorem rangeSplit6 : List.range' 6144 11720 = List.range' 6144 1024 ++ (List.range' 7168 1024 ++ (List.range' 8192 1024 ++ (List.range' 9216 1024 ++ (List.range' 10240 1024 ++ (List.range' 11264 1024 ++ (List.range' 12288 1024 ++ (List.range' 13312 1024 ++ (List.range' 14336 1024 ++ (List.range' 15360 1024 ++ (List.range' 16384 1024 ++ (List.range' 17408 456))))))))))) := by
  rw [← rangeSplit7]
  have h := List.range'_append_1 6144 1024 10696
  norm_num at h
  exact h.symm

theorem rangeSplit5 : List.range' 5120 12744 = List.range' 5120 1024 ++ (List.range' 6144 1024 ++ (List.range' 7168 1024 ++ (List.range' 8192 1024 ++ (List.range' 9216 1024 ++ (List.range' 10240 1024 ++ (List.range' 11264 1024 ++ (List.range' 12288 1024 ++ (List.range' 13312 1024 ++ (List.range' 14336 1024 ++ (List.range' 15360 1024 ++ (List.range' 16384 1024 ++ (List.range' 17408 456)))))))))))) := by
  rw [← rangeSplit6]
  have h := List.range'_append_1 5120 1024 11720
  norm_num at h
  exact h.symm

theorem rangeSplit4 : List.range' 4096 13768 = List.range' 4096 1024 ++ (List.range' 5120 1024 ++ (List.range' 6144 1024 ++ (List.range' 7168 1024 ++ (List.range' 8192 1024 ++ (List.range' 9216 1024 ++ (List.range' 10240 1024 ++ (List.range' 11264 1024 ++ (List.range' 12288 1024 ++ (List.range' 13312 1024 ++ (List.range' 14336 1024 ++ (List.range' 15360 1024 ++ (List.range' 16384 1024 ++ (List.range' 17408 456))))))))))))) := by
  rw [← rangeSplit5]
  have h := List.range'_append_1 4096 1024 12744
  norm_num at h
  exact h.symm

theorem rangeSplit3 : List.range' 3072 14792 = List.range' 3072 1024 ++ (List.range' 4096 1024 ++ (List.range' 5120 1024 ++ (List.range' 6144 1024 ++ (List.range' 7168 1024 ++ (List.range' 8192 1024 ++ (List.range' 9216 1024 ++ (List.range' 10240 1024 ++ (List.range' 11264 1024 ++ (List.range' 12288 1024 ++ (List.range' 13312 1024 ++ (List.range' 14336 1024 ++ (List.range' 15360 1024 ++ (List.range' 16384 1024 ++ (List.range' 17408 456)))))))))))))) := by
  rw [← rangeSplit4]
  have h := List.range'_append_1 3072 1024 13768
  norm_num at h
  exact h.symm

theorem rangeSplit2 : List.range' 2048 15816 = List.range' 2048 1024 ++ (List.range' 3072 1024 ++ (List.range' 4096 1024 ++ (List.range' 5120 1024 ++ (List.range' 6144 1024 ++ (List.range' 7168 1024 ++ (List.range' 8192 1024 ++ (List.range' 9216 1024 ++ (List.range' 10240 1024 ++ (List.range' 11264 1024 ++ (List.range' 12288 1024 ++ (List.range' 13312 1024 ++ (List.range' 14336 1024 ++ (List.range' 15360 1024 ++ (List.range' 16384 1024 ++ (List.range' 17408 456))))))))))))))) := by
  rw [← rangeSplit3]
  have h := List.range'_append_1 2048 1024 14792
  norm_num at h
  exact h.symm

theorem rangeSplit1 : List.range' 1024 16840 = List.range' 1024 1024 ++ (List.range' 2048 1024 ++ (List.range' 3072 1024 ++ (List.range' 4096 1024 ++ (List.range' 5120 1024 ++ (List.range' 6144 1024 ++ (List.range' 7168 1024 ++ (List.range' 8192 1024 ++ (List.range' 9216 1024 ++ (List.range' 10240 1024 ++ (List.range' 11264 1024 ++ (List.range' 12288 1024 ++ (List.range' 13312 1024 ++ (List.range' 14336 1024 ++ (List.range' 15360 1024 ++ (List.range' 16384 1024 ++ (List.range' 17408 456)))))))))))))))) := by
  rw [← rangeSplit2]
  have h := List.range'_append_1 1024 1024 15816
  norm_num at h
  exact h.symm

theorem rangeSplit0 : List.range' 0 17864 = List.range' 0 1024 ++ (List.range' 1024 1024 ++ (List.range' 2048 1024 ++ (List.range' 3072 1024 ++ (List.range' 4096 1024 ++ (List.range' 5120 1024 ++ (List.range' 6144 1024 ++ (List.range' 7168 1024 ++ (List.range' 8192 1024 ++ (List.range' 9216 1024 ++ (List.range' 10240 1024 ++ (List.range' 11264 1024 ++ (List.range' 12288 1024 ++ (List.range' 13312 1024 ++ (List.range' 14336 1024 ++ (List.range' 15360 1024 ++ (List.range' 16384 1024 ++ (List.range' 17408 456))))))))))))))))) := by
  rw [← rangeSplit1]
  have h := List.range'_append_1 0 1024 16840
  norm_num at h
  exact h.symm

theorem table_glue : first_primes = pchunk0 ++ (pchunk1 ++ (pchunk2 ++ (pchunk3 ++ (pchunk4 ++ (pchunk5 ++ (pchunk6 ++ (pchunk7 ++ (pchunk8 ++ (pchunk9 ++ (pchunk10 ++ (pchunk11 ++ (pchunk12 ++ (pchunk13 ++ (pchunk14 ++ (pchunk15 ++ (pchunk16 ++ (pchunk17))))))))))))))))) :=
  eq_of_beq (by decide)

theorem table_eq :
    first_primes = (List.range 17864).filter (fun n => smallPrime n) := by
  rw [List.range_eq_range', rangeSplit0]
  simp only [List.filter_append]
  rw [table_glue]
  rw [tableWalk_spec 1024 0 pchunk0 walkChunk0]
  rw [tableWalk_spec 1024 1024 pchunk1 walkChunk1]
  rw [tableWalk_spec 1024 2048 pchunk2 walkChunk2]
  rw [tableWalk_spec 1024 3072 pchunk3 walkChunk3]
  rw [tableWalk_spec 1024 4096 pchunk4 walkChunk4]
  rw [tableWalk_spec 1024 5120 pchunk5 walkChunk5]
  rw [tableWalk_spec 1024 6144 pchunk6 walkChunk6]
  rw [tableWalk_spec 1024 7168 pchunk7 walkChunk7]
  rw [tableWalk_spec 1024 8192 pchunk8 walkChunk8]
  rw [tableWalk_spec 1024 9216 pchunk9 walkChunk9]
  rw [tableWalk_spec 1024 10240 pchunk10 walkChunk10]
  rw [tableWalk_spec 1024 11264 pchunk11 walkChunk11]
  rw [tableWalk_spec 1024 12288 pchunk12 walkChunk12]
  rw [tableWalk_spec 1024 13312 pchunk13 walkChunk13]
  rw [tableWalk_spec 1024 14336 pchunk14 walkChunk14]
  rw [tableWalk_spec 1024 15360 pchunk15 walkChunk15]
  rw [tableWalk_spec 1024 16384 pchunk16 walkChunk16]
  rw [tableWalk_spec 456 17408 pchunk17 walkChunk17]

theorem mem_first_primes {n : Nat} :
    n ∈ first_primes ↔ n < 17864 ∧ smallPrime n = true := by
  rw [table_eq, List.mem_filter, List.mem_range]

theorem first_primes_last : first_primes.getLastD 0 = 17863 := by decide

theorem miller_rabin_prime {n : Nat} (hp : Nat.Prime n) (hn : 3 < n)
    (ws : List Nat) (hws : ∀ a ∈ ws, 2 ≤ a ∧ a ≤ n - 2) :
    miller_rabin n ws = .ok true := by
  unfold miller_rabin
  rw [if_neg (by omega : ¬ n ≤ 3)]
  show Except.ok (ws.all
    (fun a => millerRabinOne n (splitTwos (n-1) (n-1) 0).1
      (splitTwos (n-1) (n-1) 0).2 a)) = Except.ok true
  congr 1
  rw [List.all_eq_true]
  intro a ha
  obtain ⟨ha2, han⟩ := hws a ha
  obtain ⟨_, heq⟩ := splitTwos_spec (n-1) (n-1) 0 (by omega) (le_refl _)
  rw [pow_zero, mul_one] at heq
  exact millerRabinOne_prime hp heq ha2 han

end Primality

section NumberTheory

open PaillierPrivateKey

/-- Binomial collapse behind the fixed generator `g = n + 1`:
`(1 + n)^M ≡ 1 + M·n (mod n²)`. -/
theorem one_add_pow_modeq (n : Int) (M : Nat) :
    (1 + n) ^ M ≡ 1 + (M : Int) * n [ZMOD n ^ 2] := by
  induction M with
  | zero => simp
  | succ k ih =>
    have h2 : (1 + n) ^ k * (1 + n) ≡ (1 + (k : Int) * n) * (1 + n) [ZMOD n ^ 2] :=
      ih.mul_right _
    have h3 : (1 + (k : Int) * n) * (1 + n) ≡ 1 + ((k : Int) + 1) * n [ZMOD n ^ 2] :=
      Int.modEq_iff_dvd.mpr ⟨-(k : Int), by ring⟩
    calc (1 + n) ^ (k + 1) = (1 + n) ^ k * (1 + n) := pow_succ _ _
      _ ≡ 1 + ((k : Int) + 1) * n [ZMOD n ^ 2] := h2.trans h3
      _ = 1 + ((k + 1 : Nat) : Int) * n := by push_cast; ring

/-- A residue coprime to the modulus has a coprime inverse (a power of
itself). -/
theorem exists_nat_inverse {u m : Nat} (hm : 0 < m) (h : u.Coprime m) :
    ∃ z : Nat, z.Coprime m ∧ u * z ≡ 1 [MOD m] := by
  refine ⟨u ^ (Nat.totient m - 1), Nat.Coprime.pow_left _ h, ?_⟩
  have htp : 0 < Nat.totient m := Nat.totient_pos.mpr hm
  have h1 : u * u ^ (Nat.totient m - 1) = u ^ Nat.totient m := by
    rw [← pow_succ']
    congr 1
    omega
  rw [h1]
  exact Nat.ModEq.pow_totient h

/-- If `a` has an inverse mod `m` then `gcd a m = 1`. -/
theorem gcd_one_of_inv {a w m : Int} (h : a * w ≡ 1 [ZMOD m]) :
    Int.gcd a m = 1 := by
  have h1 : (Int.gcd a m : Int) ∣ a * w := Dvd.dvd.mul_right Int.gcd_dvd_left w
  have h2 : m ∣ 1 - a * w := Int.ModEq.dvd h
  have h3 : (Int.gcd a m : Int) ∣ 1 - a * w := dvd_trans Int.gcd_dvd_right h2
  have h4 : (Int.gcd a m : Int) ∣ 1 := by
    have := dvd_add h3 h1
    simpa using this
  have h5 : Int.gcd a m ∣ 1 := by
    have h6 : ((Int.gcd a m : Nat) : Int) ∣ ((1 : Nat) : Int) := by
      exact_mod_cast h4
    exact_mod_cast h6
  exact Nat.dvd_one.mp h5

/-- `l_function` reads off the quotient digit: `L(1 + P·s, P) = s`. -/
theorem l_function_val {P s : Nat} (hP : 0 < P) :
    l_function ((1 + P * s : Nat) : Int) (P : Int) = (s : Int) := by
  unfold l_function
  have h1 : ((1 + P * s : Nat) : Int) - 1 = (P : Int) * s := by push_cast; ring
  rw [h1, Int.fdiv_eq_ediv _ (by positivity)]
  exact Int.mul_ediv_cancel_left _ (by exact_mod_cast hP.ne')

/-- `powmod` with a modulus `> 1` computes `(a ^ b).fmod c`. -/
theorem powmod_ok {a : Int} (b : Nat) {c : Int} (hc : 1 < c) :
    powmod a b c = .ok ((a ^ b).fmod c) := by
  unfold powmod
  by_cases h1 : a = 1
  · subst h1
    rw [if_pos rfl, one_pow, Int.fmod_eq_emod 1 (by omega),
      Int.emod_eq_of_lt (by omega) hc]
  · rw [if_neg h1, if_neg (by omega)]

/-- Core of one CRT branch of `raw_decrypt`: for a ciphertext congruent to
`(1+n)^M · u^n` mod `n²` with `n = P·Q` and `u` coprime to `n`,
`c^(P-1) mod P²` equals `1 + P·((Q·M·(P-1)) mod P)` — Fermat-Euler kills the
`u` part and the binomial collapse linearizes the generator part. -/
theorem fermat_branch {P Q n : Nat} (hP : P.Prime) (hn : n = P * Q)
    {c : Int} {M u : Nat} (hu : u.Coprime n)
    (hc : c ≡ (1 + (n : Int)) ^ M * (u : Int) ^ n [ZMOD (n : Int) ^ 2]) :
    (c ^ (P - 1)).fmod ((P : Int) * P) =
      ((1 + P * (Q * M * (P - 1) % P) : Nat) : Int) := by
  have hP2 := hP.two_le
  have hdvd : ((P : Int) * P) ∣ (n : Int) ^ 2 := by
    refine ⟨(Q : Int) * Q, ?_⟩
    rw [hn]; push_cast; ring
  have hcP : c ≡ (1 + (n : Int)) ^ M * (u : Int) ^ n [ZMOD (P : Int) * P] :=
    hc.of_dvd hdvd
  have hpow : c ^ (P - 1) ≡ ((1 + (n : Int)) ^ M * (u : Int) ^ n) ^ (P - 1)
      [ZMOD (P : Int) * P] := hcP.pow _
  have e1 : ((1 + (n : Int)) ^ M * (u : Int) ^ n) ^ (P - 1) =
      (1 + (n : Int)) ^ (M * (P - 1)) * ((u : Int) ^ (P * (P - 1))) ^ Q := by
    rw [mul_pow, ← pow_mul, ← pow_mul, ← pow_mul]
    congr 2
    rw [hn]; ring
  -- Euler: u^(P(P-1)) ≡ 1 mod P².
  have hcoP : u.Coprime P :=
    Nat.Coprime.coprime_dvd_right ⟨Q, hn⟩ hu
  have hcoP2 : u.Coprime (P ^ 2) := Nat.Coprime.pow_right 2 hcoP
  have hphi : Nat.totient (P ^ 2) = P * (P - 1) := by
    rw [Nat.totient_prime_pow hP (by norm_num)]
    norm_num
  have hEnat : u ^ (P * (P - 1)) ≡ 1 [MOD P ^ 2] := by
    rw [← hphi]
    exact Nat.ModEq.pow_totient hcoP2
  have hE : (u : Int) ^ (P * (P - 1)) ≡ 1 [ZMOD (P : Int) * P] := by
    have := Int.natCast_modEq_iff.mpr hEnat
    push_cast at this
    have hmm : ((P : Int) ^ 2) = (P : Int) * P := sq (P : Int) ▸ by ring
    rwa [hmm] at this
  have hE' : ((u : Int) ^ (P * (P - 1))) ^ Q ≡ 1 [ZMOD (P : Int) * P] := by
    simpa using hE.pow Q
  -- binomial part
  have hbin : (1 + (n : Int)) ^ (M * (P - 1)) ≡
      1 + ((M * (P - 1) : Nat) : Int) * n [ZMOD (P : Int) * P] :=
    (one_add_pow_modeq (n : Int) (M * (P - 1))).of_dvd hdvd
  have hcomb : c ^ (P - 1) ≡
      (1 + ((M * (P - 1) : Nat) : Int) * n) * 1 [ZMOD (P : Int) * P] := by
    calc c ^ (P - 1)
        ≡ ((1 + (n : Int)) ^ M * (u : Int) ^ n) ^ (P - 1)
          [ZMOD (P : Int) * P] := hpow
      _ = (1 + (n : Int)) ^ (M * (P - 1)) * ((u : Int) ^ (P * (P - 1))) ^ Q :=
          e1
      _ ≡ (1 + ((M * (P - 1) : Nat) : Int) * n) * 1 [ZMOD (P : Int) * P] :=
          hbin.mul hE'
  -- rewrite the target as a Nat congruence
  have hTmod : (1 + P * (Q * M * (P - 1) % P) : Nat) ≡
      1 + P * (Q * M * (P - 1)) [MOD P * P] :=
    Nat.ModEq.add_left 1 (Nat.ModEq.mul_left' P (Nat.mod_modEq _ P))
  have htgt : ((1 + P * (Q * M * (P - 1) % P) : Nat) : Int) ≡
      (1 + ((M * (P - 1) : Nat) : Int) * n) * 1 [ZMOD (P : Int) * P] := by
    have h1 := Int.natCast_modEq_iff.mpr hTmod
    have h2 : ((1 + P * (Q * M * (P - 1)) : Nat) : Int) =
        (1 + ((M * (P - 1) : Nat) : Int) * n) * 1 := by
      rw [hn]; push_cast; ring
    have h3 : (((P * P : Nat)) : Int) = (P : Int) * P := by push_cast; ring
    rw [← h2, ← h3]
    exact_mod_cast h1
  have hfinal : c ^ (P - 1) ≡ ((1 + P * (Q * M * (P - 1) % P) : Nat) : Int)
      [ZMOD (P : Int) * P] := hcomb.trans htgt.symm
  -- evaluate the floor-mod
  have hylt : (1 + P * (Q * M * (P - 1) % P) : Nat) < P * P := by
    have h1 : Q * M * (P - 1) % P < P := Nat.mod_lt _ (by omega)
    nlinarith
  have hPP : (0 : Int) < (P : Int) * P := by positivity
  rw [Int.fmod_eq_emod _ (le_of_lt hPP)]
  unfold Int.ModEq at hfinal
  rw [hfinal]
  rw [Int.emod_eq_of_lt (by positivity) (by exact_mod_cast hylt)]

/-- One full CRT branch of `raw_decrypt`: `powmod`, then `l_function`, then
the precomputed `hp`/`hq` multiplier, recover `M mod P`. -/
theorem branch_value {P Q n : Nat} (hP : P.Prime) (hn : n = P * Q)
    {c : Int} {M u : Nat} (hu : u.Coprime n)
    (hc : c ≡ (1 + (n : Int)) ^ M * (u : Int) ^ n [ZMOD (n : Int) ^ 2])
    {hf : Int} (hhf : hf * ((Q * (P - 1)) % P : Nat) ≡ 1 [ZMOD (P : Int)]) :
    powmod c (P - 1) ((P : Int) * P) =
      .ok ((1 + P * (Q * M * (P - 1) % P) : Nat) : Int) ∧
    (l_function ((1 + P * (Q * M * (P - 1) % P) : Nat) : Int) (P : Int) *
      hf).fmod (P : Int) = ((M % P : Nat) : Int) := by
  have hP2 := hP.two_le
  have hppgt : (1 : Int) < (P : Int) * P := by
    have : (2 : Int) ≤ (P : Int) := by exact_mod_cast hP2
    nlinarith
  constructor
  · rw [powmod_ok (P - 1) hppgt, fermat_branch hP hn hu hc]
  · rw [l_function_val hP.pos]
    have e1 : ((Q * M * (P - 1) % P : Nat) : Int) ≡ ((Q * M * (P - 1) : Nat) : Int)
        [ZMOD (P : Int)] := Int.natCast_modEq_iff.mpr (Nat.mod_modEq _ P)
    have e2 : ((Q * M * (P - 1) : Nat) : Int) =
        ((Q * (P - 1) : Nat) : Int) * (M : Int) := by push_cast; ring
    have e3 : ((Q * (P - 1) : Nat) : Int) ≡ ((Q * (P - 1) % P : Nat) : Int)
        [ZMOD (P : Int)] := (Int.natCast_modEq_iff.mpr (Nat.mod_modEq _ P)).symm
    have e4 : ((Q * M * (P - 1) % P : Nat) : Int) * hf ≡ (M : Int) * 1
        [ZMOD (P : Int)] := by
      calc ((Q * M * (P - 1) % P : Nat) : Int) * hf
          ≡ ((Q * M * (P - 1) : Nat) : Int) * hf [ZMOD (P : Int)] :=
            e1.mul_right hf
        _ = ((Q * (P - 1) : Nat) : Int) * ((M : Int) * hf) := by rw [e2]; ring
        _ ≡ ((Q * (P - 1) % P : Nat) : Int) * ((M : Int) * hf)
            [ZMOD (P : Int)] := e3.mul_right _
        _ = (M : Int) * (hf * ((Q * (P - 1) % P : Nat) : Int)) := by ring
        _ ≡ (M : Int) * 1 [ZMOD (P : Int)] := hhf.mul_left _
    rw [Int.fmod_eq_emod _ (by positivity)]
    unfold Int.ModEq at e4
    rw [e4, mul_one]
    exact (Int.natCast_mod M P).symm

/-- `σ = (Q·(P-1)) mod P` is coprime to the prime `P` when `Q` is. -/
theorem sigma_coprime {P Q : Nat} (hP : P.Prime) (hQco : Nat.Coprime Q P) :
    Nat.Coprime (Q * (P - 1) % P) P := by
  have hP2 := hP.two_le
  have h1 : ¬ P ∣ Q := by
    intro hd
    have h2 : P ∣ Nat.gcd Q P := Nat.dvd_gcd hd dvd_rfl
    rw [Nat.Coprime.gcd_eq_one hQco] at h2
    have := Nat.le_of_dvd one_pos h2
    omega
  have h3 : ¬ P ∣ (P - 1) := by
    intro hd
    have h4 : P ≤ P - 1 := Nat.le_of_dvd (by omega) hd
    omega
  have h5 : ¬ P ∣ Q * (P - 1) := by
    intro hd
    rcases (Nat.Prime.dvd_mul hP).mp hd with h | h
    · exact h1 h
    · exact h3 h
  have h6 : Nat.Coprime P (Q * (P - 1)) := (Nat.Prime.coprime_iff_not_dvd hP).mpr h5
  have h7 : Nat.gcd (Q * (P - 1) % P) P = 1 := by
    rw [← Nat.gcd_rec]
    exact h6
  exact h7

/-- `h_function` succeeds on a valid prime factor and yields the inverse of
`σ = (Q·(P-1)) mod P` modulo `P`, in canonical range. -/
theorem h_function_ok {P Q n : Nat} (hP : P.Prime) (hn : n = P * Q)
    (hQco : Nat.Coprime Q P) (pk : PaillierPublicKey)
    (hpk : pk.n = (n : Int)) :
    ∃ v, h_function pk (P : Int) ((P : Int) * P) = .ok v ∧
      v * ((Q * (P - 1)) % P : Nat) ≡ 1 [ZMOD (P : Int)] ∧
      0 ≤ v ∧ v < (P : Int) := by
  have hP2 := hP.two_le
  have hg : pk.g ≡ (1 + (n : Int)) ^ 1 * ((1 : Nat) : Int) ^ n
      [ZMOD (n : Int) ^ 2] := by
    unfold PaillierPublicKey.g
    rw [hpk]
    have : (1 + (n : Int)) ^ 1 * ((1 : Nat) : Int) ^ n = (n : Int) + 1 := by
      push_cast; ring
    rw [this]
  have hco1 : Nat.Coprime 1 n := Nat.coprime_one_left n
  have hfb := fermat_branch hP hn hco1 hg
  have hexp : ((P : Int) - 1).toNat = P - 1 := by omega
  have hppgt : (1 : Int) < (P : Int) * P := by
    have : (2 : Int) ≤ (P : Int) := by exact_mod_cast hP2
    nlinarith
  have hpm : powmod pk.g ((P : Int) - 1).toNat ((P : Int) * P) =
      .ok ((1 + P * (Q * 1 * (P - 1) % P) : Nat) : Int) := by
    rw [hexp, powmod_ok _ hppgt, hfb]
  have hQ1 : Q * 1 * (P - 1) = Q * (P - 1) := by ring
  have hσco := sigma_coprime hP hQco
  have hgcd : Int.gcd ((Q * (P - 1) % P : Nat) : Int) ((P : Nat) : Int) = 1 := by
    simpa [Int.gcd] using hσco
  obtain ⟨v, hv, hmod, hv0, hvP⟩ :=
    invert_total (by positivity) (by exact_mod_cast hP.pos) hgcd
  refine ⟨v, ?_, by rwa [mul_comm] at hmod, hv0, hvP⟩
  show (do
    let t ← powmod pk.g ((P : Int) - 1).toNat ((P : Int) * P)
    invert (l_function t (P : Int)) (P : Int)) = .ok v
  rw [hpm]
  show invert
    (l_function ((1 + P * (Q * 1 * (P - 1) % P) : Nat) : Int) (P : Int))
    (P : Int) = .ok v
  rw [hQ1, l_function_val hP.pos]
  exact hv

/-- `PaillierPrivateKey.__init__` succeeds on two distinct primes multiplying
to `n`, with `p < q`, and its stored helper constants satisfy their defining
congruences. -/
theorem mk'_ok {p q : Nat} (hp : p.Prime) (hq : q.Prime) (hlt : p < q)
    (pk : PaillierPublicKey) (hpk : pk.n = ((p * q : Nat) : Int)) :
    ∃ sk, mk' pk (p : Int) (q : Int) = .ok sk ∧
      sk.p = (p : Int) ∧ sk.q = (q : Int) ∧
      sk.psquare = (p : Int) * p ∧ sk.qsquare = (q : Int) * q ∧
      ((p : Int) * sk.p_inverse ≡ 1 [ZMOD (q : Int)]) ∧
      (sk.hp * ((q * (p - 1)) % p : Nat) ≡ 1 [ZMOD (p : Int)]) ∧
      (sk.hq * ((p * (q - 1)) % q : Nat) ≡ 1 [ZMOD (q : Int)]) := by
  have hne : p ≠ q := Nat.ne_of_lt hlt
  have hco : Nat.Coprime p q := (Nat.coprime_primes hp hq).mpr hne
  have hgcdpq : Int.gcd ((p : Nat) : Int) ((q : Nat) : Int) = 1 := by
    simpa [Int.gcd] using hco
  obtain ⟨vi, hvi, hvimod, _, _⟩ :=
    invert_total (by positivity) (by exact_mod_cast hq.pos) hgcdpq
  obtain ⟨vp, hvp, hvpmod, _, _⟩ :=
    h_function_ok (Q := q) hp rfl hco.symm pk hpk
  obtain ⟨vq, hvq, hvqmod, _, _⟩ :=
    h_function_ok (Q := p) hq (Nat.mul_comm q p).symm hco pk hpk
  refine ⟨⟨p, q, (p : Int) * p, (q : Int) * q, vi, vp, vq⟩, ?_,
    rfl, rfl, rfl, rfl, hvimod, hvpmod, hvqmod⟩
  show (if (p : Int) * (q : Int) ≠ pk.n then Except.error Err.keyMismatch
    else if (p : Int) = (q : Int) then Except.error Err.keyMismatch
    else _) = _
  rw [if_neg (by rw [hpk]; push_cast; simp), if_neg (by exact_mod_cast hne)]
  rw [if_neg (not_lt.mpr (by exact_mod_cast hlt.le))]
  show (do
    let p_inverse ← invert (p : Int) (q : Int)
    let hp' ← h_function pk (p : Int) ((p : Int) * p)
    let hq' ← h_function pk (q : Int) ((q : Int) * q)
    pure (⟨p, q, (p : Int) * p, (q : Int) * q, p_inverse, hp', hq'⟩ :
      PaillierPrivateKey)) = _
  rw [hvi]
  show (do
    let hp' ← h_function pk (p : Int) ((p : Int) * p)
    let hq' ← h_function pk (q : Int) ((q : Int) * q)
    pure (⟨p, q, (p : Int) * p, (q : Int) * q, vi, hp', hq'⟩ :
      PaillierPrivateKey)) = _
  rw [hvp]
  show (do
    let hq' ← h_function pk (q : Int) ((q : Int) * q)
    pure (⟨p, q, (p : Int) * p, (q : Int) * q, vi, vp, hq'⟩ :
      PaillierPrivateKey)) = _
  rw [hvq]
  rfl

/-- The CRT recombination reproduces `M mod (p·q)` from the two partial
residues `M mod p` and `M mod q`. -/
theorem crt_exact {p q n : Nat} (hppos : 0 < p) (hqpos : 0 < q)
    (hco : Nat.Coprime p q) (hn : n = p * q)
    (sk : PaillierPrivateKey) (hskp : sk.p = (p : Int))
    (hskq : sk.q = (q : Int))
    (hpinv : (p : Int) * sk.p_inverse ≡ 1 [ZMOD (q : Int)]) (M : Nat) :
    sk.crt ((M % p : Nat) : Int) ((M % q : Nat) : Int) = ((M % n : Nat) : Int) := by
  unfold PaillierPrivateKey.crt
  rw [hskp, hskq]
  have hq0 : (0 : Int) < (q : Int) := by exact_mod_cast hqpos
  have hp0 : (0 : Int) < (p : Int) := by exact_mod_cast hppos
  set mp : Int := ((M % p : Nat) : Int) with hmp
  set mq : Int := ((M % q : Nat) : Int) with hmq
  set w : Int := ((mq - mp) * sk.p_inverse).fmod (q : Int) with hw
  have hfe : w = ((mq - mp) * sk.p_inverse) % (q : Int) := by
    rw [hw, Int.fmod_eq_emod _ (le_of_lt hq0)]
  have hw0 : 0 ≤ w := by rw [hfe]; exact Int.emod_nonneg _ (ne_of_gt hq0)
  have hwq : w < (q : Int) := by rw [hfe]; exact Int.emod_lt_of_pos _ hq0
  have hmp0 : 0 ≤ mp := by rw [hmp]; positivity
  have hmpp : mp < (p : Int) := by
    rw [hmp]; exact_mod_cast Nat.mod_lt M hppos
  have e_mp : mp ≡ (M : Int) [ZMOD (p : Int)] :=
    Int.natCast_modEq_iff.mpr (Nat.mod_modEq M p)
  have e_mq : mq ≡ (M : Int) [ZMOD (q : Int)] :=
    Int.natCast_modEq_iff.mpr (Nat.mod_modEq M q)
  have hRp : mp + w * p ≡ (M : Int) [ZMOD (p : Int)] := by
    have h1 : mp + w * p ≡ mp [ZMOD (p : Int)] :=
      Int.modEq_iff_dvd.mpr ⟨-w, by ring⟩
    exact h1.trans e_mp
  have hRq : mp + w * p ≡ (M : Int) [ZMOD (q : Int)] := by
    have h1 : w ≡ (mq - mp) * sk.p_inverse [ZMOD (q : Int)] := by
      rw [hfe]
      show ((mq - mp) * sk.p_inverse) % (q : Int) % (q : Int) = _ % (q : Int)
      exact Int.emod_emod_of_dvd _ dvd_rfl
    have h2 : mp + w * p ≡ mp + ((mq - mp) * sk.p_inverse) * p
        [ZMOD (q : Int)] := (h1.mul_right (p : Int)).add_left mp
    have h3 : mp + ((mq - mp) * sk.p_inverse) * p =
        mp + (mq - mp) * ((p : Int) * sk.p_inverse) := by ring
    have h4 : mp + (mq - mp) * ((p : Int) * sk.p_inverse) ≡
        mp + (mq - mp) * 1 [ZMOD (q : Int)] :=
      (hpinv.mul_left (mq - mp)).add_left mp
    have h5 : mp + (mq - mp) * 1 = mq := by ring
    calc mp + w * p ≡ mp + ((mq - mp) * sk.p_inverse) * p [ZMOD (q : Int)] := h2
      _ = mp + (mq - mp) * ((p : Int) * sk.p_inverse) := h3
      _ ≡ mp + (mq - mp) * 1 [ZMOD (q : Int)] := h4
      _ = mq := h5
      _ ≡ (M : Int) [ZMOD (q : Int)] := e_mq
  have hdp : (p : Int) ∣ (M : Int) - (mp + w * p) := Int.ModEq.dvd hRp
  have hdq : (q : Int) ∣ (M : Int) - (mp + w * p) := Int.ModEq.dvd hRq
  have hcoZ : IsCoprime (p : Int) (q : Int) :=
    Int.isCoprime_iff_gcd_eq_one.mpr (by simpa [Int.gcd] using hco)
  have hdn : ((p : Int) * q) ∣ (M : Int) - (mp + w * p) := hcoZ.mul_dvd hdp hdq
  have hRn : mp + w * p ≡ (M : Int) [ZMOD (n : Int)] := by
    refine Int.modEq_iff_dvd.mpr ?_
    rw [hn]
    push_cast
    exact_mod_cast hdn
  have hR0 : 0 ≤ mp + w * p := by positivity
  have hRlt : mp + w * p < (n : Int) := by
    have h1 : (n : Int) = (p : Int) * q := by rw [hn]; push_cast; ring
    rw [h1]
    nlinarith
  have := hRn
  unfold Int.ModEq at this
  rw [Int.emod_eq_of_lt hR0 hRlt] at this
  rw [this, Int.natCast_mod]

/-- `powmod` never fails when the modulus is nonzero. -/
theorem powmod_isOk {a : Int} (b : Nat) {c : Int} (hc : c ≠ 0) :
    ∃ w, powmod a b c = .ok w := by
  unfold powmod
  by_cases h : a = 1
  · exact ⟨1, by rw [if_pos h]⟩
  · exact ⟨_, by rw [if_neg h, if_neg hc]⟩

/-- Master decryption lemma: for a key built from distinct primes `p < q`
with `n = p·q`, and any ciphertext congruent to `(1+n)^M · u^n` mod `n²`
with `u` coprime to `n`, `raw_decrypt` returns `M mod n`. -/
theorem raw_decrypt_ok {p q n : Nat} (hp : p.Prime) (hq : q.Prime)
    (hlt : p < q) (hn : n = p * q)
    {sk : PaillierPrivateKey}
    (hskp : sk.p = (p : Int)) (hskq : sk.q = (q : Int))
    (hsp : sk.psquare = (p : Int) * p) (hsq : sk.qsquare = (q : Int) * q)
    (hpinv : (p : Int) * sk.p_inverse ≡ 1 [ZMOD (q : Int)])
    (hhp : sk.hp * ((q * (p - 1)) % p : Nat) ≡ 1 [ZMOD (p : Int)])
    (hhq : sk.hq * ((p * (q - 1)) % q : Nat) ≡ 1 [ZMOD (q : Int)])
    {c : Int} {M u : Nat} (hu : u.Coprime n)
    (hc : c ≡ (1 + (n : Int)) ^ M * (u : Int) ^ n [ZMOD (n : Int) ^ 2]) :
    sk.raw_decrypt c = .ok ((M % n : Nat) : Int) := by
  obtain ⟨hpm_p, hl_p⟩ := branch_value hp hn hu hc hhp
  obtain ⟨hpm_q, hl_q⟩ :=
    branch_value hq (hn.trans (Nat.mul_comm p q)) hu hc hhq
  have hexp_p : ((p : Int) - 1).toNat = p - 1 := by omega
  have hexp_q : ((q : Int) - 1).toNat = q - 1 := by omega
  unfold PaillierPrivateKey.raw_decrypt
  rw [hskp, hskq, hsp, hsq, hexp_p, hexp_q, hpm_p]
  show (do
    let xq ← powmod c (q - 1) ((q : Int) * q)
    pure (sk.crt
      ((PaillierPrivateKey.l_function
        ((1 + p * (q * M * (p - 1) % p) : Nat) : Int) (p : Int) * sk.hp).fmod
        (p : Int))
      ((PaillierPrivateKey.l_function xq (q : Int) * sk.hq).fmod (q : Int)))) =
    .ok ((M % n : Nat) : Int)
  rw [hpm_q]
  show Except.ok (sk.crt
      ((PaillierPrivateKey.l_function
        ((1 + p * (q * M * (p - 1) % p) : Nat) : Int) (p : Int) * sk.hp).fmod
        (p : Int))
      ((PaillierPrivateKey.l_function
        ((1 + q * (p * M * (q - 1) % q) : Nat) : Int) (q : Int) * sk.hq).fmod
        (q : Int))) = .ok ((M % n : Nat) : Int)
  rw [hl_p, hl_q]
  rw [crt_exact hp.pos hq.pos ((Nat.coprime_primes hp hq).mpr (Nat.ne_of_lt hlt))
    hn sk hskp hskq hpinv M]

/-- `a.fmod m ≡ a` modulo a positive `m`. -/
theorem fmod_modEq (a : Int) {m : Int} (hm : 0 < m) : a.fmod m ≡ a [ZMOD m] := by
  rw [Int.fmod_eq_emod _ (le_of_lt hm)]
  show a % m % m = a % m
  exact Int.emod_emod_of_dvd _ dvd_rfl

theorem fmod_nonneg' (a : Int) {m : Int} (hm : 0 < m) : 0 ≤ a.fmod m := by
  rw [Int.fmod_eq_emod _ (le_of_lt hm)]
  exact Int.emod_nonneg _ (ne_of_gt hm)

theorem fmod_lt_of_pos (a : Int) {m : Int} (hm : 0 < m) : a.fmod m < m := by
  rw [Int.fmod_eq_emod _ (le_of_lt hm)]
  exact Int.emod_lt_of_pos _ hm

/-- Multiplying two reduced residues and reducing equals reducing the
product. -/
theorem fmod_mul_fmod (a b : Int) {m : Int} (hm : 0 < m) :
    (a.fmod m * b.fmod m).fmod m = (a * b).fmod m := by
  rw [Int.fmod_eq_emod _ (le_of_lt hm), Int.fmod_eq_emod _ (le_of_lt hm),
    Int.fmod_eq_emod _ (le_of_lt hm), Int.fmod_eq_emod _ (le_of_lt hm),
    ← Int.mul_emod]

/-- Two congruent residues in canonical range are equal. -/
theorem modeq_eq_of_range {a b m : Int} (hab : a ≡ b [ZMOD m])
    (ha0 : 0 ≤ a) (ham : a < m) (hb0 : 0 ≤ b) (hbm : b < m) : a = b := by
  have := hab
  unfold Int.ModEq at this
  rwa [Int.emod_eq_of_lt ha0 ham, Int.emod_eq_of_lt hb0 hbm] at this

/-- The inverse-based shortcut of `raw_encrypt` agrees with the direct
formula: `invert((n·(n-m)+1) mod n², n²) = (n·m+1) mod n²`. -/
theorem invert_shortcut (pk : PaillierPublicKey) (hn2 : 2 ≤ pk.n) (m : Int) :
    invert ((pk.n * (pk.n - m) + 1).fmod pk.nsquare) pk.nsquare =
      .ok ((pk.n * m + 1).fmod pk.nsquare) := by
  have hS1 : (1 : Int) < pk.nsquare := by
    unfold PaillierPublicKey.nsquare; nlinarith
  have hS : (0 : Int) < pk.nsquare := by linarith
  have hX : (pk.n * (pk.n - m) + 1) * (pk.n * m + 1) ≡ 1 [ZMOD pk.nsquare] := by
    refine Int.modEq_iff_dvd.mpr ⟨-(m * (pk.n - m) + 1), ?_⟩
    unfold PaillierPublicKey.nsquare
    ring
  have hAW : ((pk.n * (pk.n - m) + 1).fmod pk.nsquare) *
      ((pk.n * m + 1).fmod pk.nsquare) ≡ 1 [ZMOD pk.nsquare] :=
    ((fmod_modEq _ hS).mul (fmod_modEq _ hS)).trans hX
  obtain ⟨v, hv, hvmod, hv0, hvS⟩ :=
    invert_total (fmod_nonneg' _ hS) hS (gcd_one_of_inv hAW)
  rw [hv]
  congr 1
  exact mod_inverse_unique hS hvmod hAW (hv0) (hvS)
    (fmod_nonneg' _ hS) (fmod_lt_of_pos _ hS)

/-- `raw_encrypt` computes `(n·m+1) · r^n mod n²` on both branches, for any
plaintext residue in `[0, n)`. -/
theorem raw_encrypt_ok (pk : PaillierPublicKey) (hn2 : 2 ≤ pk.n)
    (m r : Int) :
    pk.raw_encrypt m r =
      .ok (((pk.n * m + 1) * r ^ pk.n.toNat).fmod pk.nsquare) := by
  have hS1 : (1 : Int) < pk.nsquare := by
    unfold PaillierPublicKey.nsquare; nlinarith
  have hS : (0 : Int) < pk.nsquare := by linarith
  unfold PaillierPublicKey.raw_encrypt
  by_cases hbig : pk.n - pk.max_int ≤ m ∧ m < pk.n
  · rw [if_pos hbig]
    show (do
      let y ← invert ((pk.n * (pk.n - m) + 1).fmod pk.nsquare) pk.nsquare
      let obfuscator ← powmod r pk.n.toNat pk.nsquare
      pure ((y * obfuscator).fmod pk.nsquare) : Except Err Int) = _
    rw [invert_shortcut pk hn2 m]
    show (do
      let obfuscator ← powmod r pk.n.toNat pk.nsquare
      pure ((((pk.n * m + 1).fmod pk.nsquare) * obfuscator).fmod pk.nsquare) :
      Except Err Int) = _
    rw [powmod_ok _ hS1]
    show Except.ok ((((pk.n * m + 1).fmod pk.nsquare) *
      ((r ^ pk.n.toNat).fmod pk.nsquare)).fmod pk.nsquare) = _
    rw [fmod_mul_fmod _ _ hS]
  · rw [if_neg hbig]
    show (do
      let obfuscator ← powmod r pk.n.toNat pk.nsquare
      pure ((((pk.n * m + 1).fmod pk.nsquare) * obfuscator).fmod pk.nsquare) :
      Except Err Int) = _
    rw [powmod_ok _ hS1]
    show Except.ok ((((pk.n * m + 1).fmod pk.nsquare) *
      ((r ^ pk.n.toNat).fmod pk.nsquare)).fmod pk.nsquare) = _
    rw [fmod_mul_fmod _ _ hS]

/-- A raw ciphertext `(n·m+1)·r^n mod n²` has the Paillier normal form
`(1+n)^(m.toNat) · u^n mod n²` with `u = r.toNat`. -/
theorem encrypted_form {n : Nat} (hnpos : 0 < n) (pk : PaillierPublicKey)
    (hpk : pk.n = (n : Int)) {m r : Int} (hm0 : 0 ≤ m) (hr0 : 0 ≤ r) :
    ((pk.n * m + 1) * r ^ pk.n.toNat).fmod pk.nsquare ≡
      (1 + (n : Int)) ^ m.toNat * ((r.toNat : Nat) : Int) ^ n
      [ZMOD (n : Int) ^ 2] := by
  have hsq : pk.nsquare = (n : Int) ^ 2 := by
    unfold PaillierPublicKey.nsquare; rw [hpk]; ring
  have htn : pk.n.toNat = n := by rw [hpk]; exact Int.toNat_natCast n
  have hmm : ((m.toNat : Nat) : Int) = m := Int.toNat_of_nonneg hm0
  have hrr : ((r.toNat : Nat) : Int) = r := Int.toNat_of_nonneg hr0
  have hS : (0 : Int) < (n : Int) ^ 2 := by positivity
  rw [hsq]
  have h1 : ((pk.n * m + 1) * r ^ pk.n.toNat).fmod ((n : Int) ^ 2) ≡
      (pk.n * m + 1) * r ^ pk.n.toNat [ZMOD (n : Int) ^ 2] := fmod_modEq _ hS
  refine h1.trans ?_
  rw [hpk, Int.toNat_natCast, ← hmm, ← hrr]
  have h2 : (1 + (n : Int)) ^ m.toNat ≡ 1 + (m.toNat : Int) * n
      [ZMOD (n : Int) ^ 2] := one_add_pow_modeq (n : Int) m.toNat
  have h3 : (n : Int) * ((m.toNat : Nat) : Int) + 1 =
      1 + (m.toNat : Int) * n := by ring
  rw [h3]
  exact (h2.symm).mul_right _

/-- Ordering facts about `max_int = n // 3 - 1` for `n ≥ 3`. -/
theorem max_int_facts (pk : PaillierPublicKey) (hn3 : 3 ≤ pk.n) :
    0 ≤ pk.max_int ∧ pk.max_int + pk.max_int < pk.n := by
  unfold PaillierPublicKey.max_int
  rw [Int.fdiv_eq_ediv _ (by norm_num)]
  have h1 := Int.emod_add_ediv pk.n 3
  have h2 : 0 ≤ pk.n % 3 := Int.emod_nonneg _ (by norm_num)
  have h3 : pk.n % 3 < 3 := Int.emod_lt_of_pos _ (by norm_num)
  omega

/-- `decodeMantissa` recovers `v` from any residue in `[0, n)` congruent to
a `v` with `|v| ≤ max_int`. -/
theorem decodeMantissa_of_small (pk : PaillierPublicKey) (hn3 : 3 ≤ pk.n)
    {v x : Int} (hv : |v| ≤ pk.max_int) (hx0 : 0 ≤ x) (hxn : x < pk.n)
    (hcong : x ≡ v [ZMOD pk.n]) :
    EncodedNumber.decodeMantissa pk x = .ok v := by
  obtain ⟨hmi0, hmi2⟩ := max_int_facts pk hn3
  have habs := abs_le.mp hv
  unfold EncodedNumber.decodeMantissa
  by_cases hvpos : 0 ≤ v
  · have hxv : x = v :=
      modeq_eq_of_range hcong hx0 hxn hvpos (by omega)
    rw [if_neg (by omega), if_pos (by omega), hxv]
  · have hshift : v ≡ v + pk.n [ZMOD pk.n] :=
      Int.modEq_iff_dvd.mpr ⟨1, by ring⟩
    have hxv : x = v + pk.n :=
      modeq_eq_of_range (hcong.trans hshift) hx0 hxn (by omega) (by omega)
    rw [if_neg (by omega), if_neg (by omega), if_pos (by omega)]
    congr 1
    omega

/-- `encode` of an `int` within range: exponent `0`, residue `v mod n`. -/
theorem encode_int_ok (pk : PaillierPublicKey) {v : Int}
    (hv : |v| ≤ pk.max_int) :
    EncodedNumber.encode pk v none = .ok ⟨v.fmod pk.n, 0⟩ := by
  unfold EncodedNumber.encode
  norm_num [EncodedNumber.BASE]
  intro h
  exact absurd h (not_lt.mpr hv)

/-- `encrypt` with an explicit `r_value = r ≠ 0` returns the fresh
(unobfuscated) ciphertext `(n·(v mod n)+1)·r^n mod n²` at exponent `0`. -/
theorem encrypt_some_ok (pk : PaillierPublicKey) (hn2 : 2 ≤ pk.n)
    {v : Int} (hv : |v| ≤ pk.max_int) {r : Int} (hr : r ≠ 0) (r0 : Int) :
    pk.encrypt v (some r) r0 = .ok
      ⟨((pk.n * v.fmod pk.n + 1) * r ^ pk.n.toNat).fmod pk.nsquare, 0,
        false⟩ := by
  unfold PaillierPublicKey.encrypt
  rw [encode_int_ok pk hv]
  show pk.encrypt_encoded ⟨v.fmod pk.n, 0⟩ (some r) r0 = _
  unfold PaillierPublicKey.encrypt_encoded
  show (do
    let c ← pk.raw_encrypt (v.fmod pk.n) (if r = 0 then 1 else r)
    pure (⟨c, 0, false⟩ : EncryptedNumber) : Except Err EncryptedNumber) = _
  rw [if_neg hr, raw_encrypt_ok pk hn2]
  rfl

/-- `encrypt` with `r_value = None` obfuscates with the drawn `r`, returning
the obfuscated ciphertext `(n·(v mod n)+1)·r^n mod n²` at exponent `0`. -/
theorem encrypt_none_ok (pk : PaillierPublicKey) (hn2 : 2 ≤ pk.n)
    {v : Int} (hv : |v| ≤ pk.max_int) (r : Int) :
    pk.encrypt v none r = .ok
      ⟨((pk.n * v.fmod pk.n + 1) * r ^ pk.n.toNat).fmod pk.nsquare, 0,
        true⟩ := by
  have hS1 : (1 : Int) < pk.nsquare := by
    unfold PaillierPublicKey.nsquare; nlinarith
  have hS : (0 : Int) < pk.nsquare := by linarith
  unfold PaillierPublicKey.encrypt
  rw [encode_int_ok pk hv]
  show pk.encrypt_encoded ⟨v.fmod pk.n, 0⟩ none r = _
  unfold PaillierPublicKey.encrypt_encoded
  show (do
    let c ← pk.raw_encrypt (v.fmod pk.n) 1
    EncryptedNumber.obfuscate pk ⟨c, 0, false⟩ r :
    Except Err EncryptedNumber) = _
  rw [raw_encrypt_ok pk hn2]
  show EncryptedNumber.obfuscate pk
    ⟨((pk.n * v.fmod pk.n + 1) * 1 ^ pk.n.toNat).fmod pk.nsquare, 0, false⟩
    r = _
  unfold EncryptedNumber.obfuscate
  rw [powmod_ok _ hS1]
  show Except.ok
    (⟨(((pk.n * v.fmod pk.n + 1) * 1 ^ pk.n.toNat).fmod pk.nsquare *
      ((r ^ pk.n.toNat).fmod pk.nsquare)).fmod pk.nsquare, 0, true⟩ :
      EncryptedNumber) = _
  rw [fmod_mul_fmod _ _ hS, one_pow, mul_one]

/-- End-to-end decryption of an exponent-0 `EncryptedNumber` whose ciphertext
has the Paillier normal form `(1+n)^M · u^n` with `u` coprime to `n` and
`M ≡ v (mod n)`, `|v| ≤ max_int`. -/
theorem decrypt_form_ok {p q n : Nat} (hp : p.Prime) (hq : q.Prime)
    (hlt : p < q) (hn : n = p * q)
    (pk : PaillierPublicKey) (hpk : pk.n = (n : Int))
    {sk : PaillierPrivateKey}
    (hsk : PaillierPrivateKey.mk' pk (p : Int) (q : Int) = .ok sk)
    {e : EncryptedNumber} (hexp : e.exponent = 0)
    {M u : Nat} (hu : u.Coprime n)
    (hc : e.ciphertext ≡ (1 + (n : Int)) ^ M * (u : Int) ^ n
      [ZMOD (n : Int) ^ 2])
    {v : Int} (hv : |v| ≤ pk.max_int)
    (hMv : (M : Int) ≡ v [ZMOD pk.n]) :
    PaillierPrivateKey.decrypt pk sk e = .ok v := by
  have hq3 : 3 ≤ q := by
    rcases hq.two_le.lt_or_eq with h | h
    · omega
    · exfalso
      have := hp.two_le
      omega
  have hn6 : 6 ≤ n := by
    rw [hn]
    calc 6 = 2 * 3 := by norm_num
    _ ≤ p * q := Nat.mul_le_mul hp.two_le hq3
  have hn3 : 3 ≤ pk.n := by rw [hpk]; exact_mod_cast le_trans (by norm_num) hn6
  obtain ⟨sk', hsk', h1, h2, h3, h4, h5, h6, h7⟩ :=
    mk'_ok hp hq hlt pk (by rw [hpk, hn])
  rw [hsk'] at hsk
  have hskeq : sk = sk' := by
    injection hsk with h
    exact h.symm
  subst hskeq
  have hraw : sk.raw_decrypt e.ciphertext = .ok ((M % n : Nat) : Int) :=
    raw_decrypt_ok hp hq hlt hn h1 h2 h3 h4 h5 h6 h7 hu hc
  unfold PaillierPrivateKey.decrypt PaillierPrivateKey.decrypt_encoded
  rw [hraw]
  show EncodedNumber.decode pk ⟨((M % n : Nat) : Int), e.exponent⟩ = .ok v
  rw [hexp]
  unfold EncodedNumber.decode
  have hnpos : 0 < n := by omega
  have hx0 : (0 : Int) ≤ ((M % n : Nat) : Int) := by positivity
  have hxn : ((M % n : Nat) : Int) < pk.n := by
    rw [hpk]
    exact_mod_cast Nat.mod_lt M hnpos
  have hcong : ((M % n : Nat) : Int) ≡ v [ZMOD pk.n] := by
    refine Int.ModEq.trans ?_ hMv
    rw [hpk]
    exact Int.natCast_modEq_iff.mpr (Nat.mod_modEq M n)
  rw [decodeMantissa_of_small pk hn3 hv hx0 hxn hcong]
  show (if (0 : Int) ≤ 0 then
      pure (v * EncodedNumber.BASE ^ (0 : Int).toNat)
    else Except.error Err.floatResult : Except Err Int) = .ok v
  rw [if_pos le_rfl]
  norm_num [EncodedNumber.BASE]
  rfl

/-- `_add_encrypted` with equal exponents skips the alignment step. -/
theorem add_encrypted_same_exp (pk : PaillierPublicKey)
    {a b : EncryptedNumber} (h : a.exponent = b.exponent) :
    EncryptedNumber.add_encrypted pk a b =
      .ok ⟨EncryptedNumber.raw_add pk a.ciphertext b.ciphertext,
        a.exponent, false⟩ := by
  unfold EncryptedNumber.add_encrypted
  rw [if_neg (by omega), if_neg (by omega)]
  rfl

/-- An integer coprimality hypothesis transfers to the natural parts. -/
theorem int_gcd_to_nat_coprime {r : Int} {n : Nat} (hr : 0 ≤ r)
    (h : Int.gcd r ((n : Nat) : Int) = 1) : r.toNat.Coprime n := by
  have h1 : r.natAbs = r.toNat := by omega
  have h2 : ((n : Int)).natAbs = n := by omega
  unfold Int.gcd at h
  rw [h1, h2] at h
  exact h

/-- The product of two ciphertexts in Paillier normal form, reduced mod
`n²`, is in normal form for the sum of the plaintext residues. -/
theorem form_mul {n : Nat} (hnpos : 0 < n) {c₁ c₂ : Int} {M₁ M₂ u₁ u₂ : Nat}
    (h₁ : c₁ ≡ (1 + (n : Int)) ^ M₁ * (u₁ : Int) ^ n [ZMOD (n : Int) ^ 2])
    (h₂ : c₂ ≡ (1 + (n : Int)) ^ M₂ * (u₂ : Int) ^ n [ZMOD (n : Int) ^ 2]) :
    (c₁ * c₂).fmod ((n : Int) * n) ≡
      (1 + (n : Int)) ^ (M₁ + M₂) * ((u₁ * u₂ : Nat) : Int) ^ n
      [ZMOD (n : Int) ^ 2] := by
  have hsq2 : ((n : Int)) ^ 2 = (n : Int) * n := pow_two _
  have hS : (0 : Int) < (n : Int) * n := by positivity
  have h0 : (c₁ * c₂).fmod ((n : Int) * n) ≡ c₁ * c₂ [ZMOD (n : Int) ^ 2] := by
    rw [hsq2]
    exact fmod_modEq _ hS
  refine h0.trans ((h₁.mul h₂).trans ?_)
  have heq : (1 + (n : Int)) ^ M₁ * (u₁ : Int) ^ n *
      ((1 + (n : Int)) ^ M₂ * (u₂ : Int) ^ n) =
      (1 + (n : Int)) ^ (M₁ + M₂) * ((u₁ * u₂ : Nat) : Int) ^ n := by
    push_cast
    ring
  rw [heq]

/-- `(1+n)^(M·n) ≡ 1 mod n²`: the generator has order dividing `n`. -/
theorem one_add_pow_n_mul (n M : Nat) :
    (1 + (n : Int)) ^ (M * n) ≡ 1 [ZMOD (n : Int) ^ 2] := by
  refine (one_add_pow_modeq (n : Int) (M * n)).trans ?_
  exact Int.modEq_iff_dvd.mpr ⟨-(M : Int), by push_cast; ring⟩

/-- `_raw_mul` on a plaintext residue in `[0, n)` succeeds on both branches
and yields a ciphertext in Paillier normal form for `M · enc`. -/
theorem raw_mul_form {n : Nat} (pk : PaillierPublicKey)
    (hpk : pk.n = (n : Int)) (hn2 : 2 ≤ pk.n)
    {e : EncryptedNumber} {M u : Nat} (hu : u.Coprime n)
    (hc : e.ciphertext ≡ (1 + (n : Int)) ^ M * (u : Int) ^ n
      [ZMOD (n : Int) ^ 2])
    (hc0 : 0 ≤ e.ciphertext)
    {enc : Int} (henc0 : 0 ≤ enc) (hencn : enc < pk.n) :
    ∃ (c' : Int) (u' : Nat), u'.Coprime n ∧
      EncryptedNumber.raw_mul pk e enc = .ok c' ∧
      c' ≡ (1 + (n : Int)) ^ (M * enc.toNat) * ((u' : Nat) : Int) ^ n
        [ZMOD (n : Int) ^ 2] := by
  have hsq2 : ((n : Int)) ^ 2 = (n : Int) * n := pow_two _
  have hNpos : (0 : Int) < pk.n := by omega
  have hnpos : 0 < n := by omega
  have hS1 : (1 : Int) < pk.nsquare := by
    unfold PaillierPublicKey.nsquare; nlinarith
  have hS : (0 : Int) < pk.nsquare := by linarith
  have hSn : pk.nsquare = (n : Int) * n := by
    unfold PaillierPublicKey.nsquare; rw [hpk]
  have hfm : ∀ x : Int, x.fmod pk.nsquare ≡ x [ZMOD (n : Int) ^ 2] := by
    intro x
    rw [hsq2, ← hSn]
    exact fmod_modEq _ hS
  unfold EncryptedNumber.raw_mul
  rw [if_neg (by omega)]
  by_cases hbig : pk.n - pk.max_int ≤ enc
  · -- inverse branch
    have hun2 : u.Coprime (n ^ 2) := Nat.Coprime.pow_right 2 hu
    obtain ⟨z, hzco2, hz⟩ := exists_nat_inverse (by positivity) hun2
    have hzco : z.Coprime n :=
      Nat.Coprime.coprime_dvd_right (dvd_pow_self n (by norm_num)) hzco2
    have hzInt : (u : Int) * (z : Int) ≡ 1 [ZMOD (n : Int) ^ 2] := by
      have h1 := Int.natCast_modEq_iff.mpr hz
      push_cast at h1
      exact h1
    have hMn : M + M * (n - 1) = M * n := by
      rcases n with _ | m
      · omega
      · simp only [Nat.succ_sub_one]
        ring
    have hw : e.ciphertext * ((1 + (n : Int)) ^ (M * (n - 1)) * (z : Int) ^ n)
        ≡ 1 [ZMOD (n : Int) ^ 2] := by
      have h1 : e.ciphertext * ((1 + (n : Int)) ^ (M * (n - 1)) * (z : Int) ^ n)
          ≡ ((1 + (n : Int)) ^ M * (u : Int) ^ n) *
            ((1 + (n : Int)) ^ (M * (n - 1)) * (z : Int) ^ n)
          [ZMOD (n : Int) ^ 2] := hc.mul_right _
      have h2 : ((1 + (n : Int)) ^ M * (u : Int) ^ n) *
          ((1 + (n : Int)) ^ (M * (n - 1)) * (z : Int) ^ n) =
          (1 + (n : Int)) ^ (M + M * (n - 1)) *
            ((u : Int) * (z : Int)) ^ n := by ring
      have h3 : (1 + (n : Int)) ^ (M + M * (n - 1)) *
          ((u : Int) * (z : Int)) ^ n ≡ 1 * 1 [ZMOD (n : Int) ^ 2] := by
        refine Int.ModEq.mul ?_ ?_
        · rw [hMn]; exact one_add_pow_n_mul n M
        · have h4 := hzInt.pow n
          rwa [one_pow] at h4
      refine h1.trans ?_
      rw [h2]
      simpa using h3
    have hgcd : Int.gcd e.ciphertext pk.nsquare = 1 := by
      refine gcd_one_of_inv
        (w := (1 + (n : Int)) ^ (M * (n - 1)) * (z : Int) ^ n) ?_
      rw [hSn, ← hsq2]
      exact hw
    obtain ⟨cinv, hcinv, hcinvmod, hcinv0, hcinvS⟩ :=
      invert_total hc0 hS hgcd
    refine ⟨(cinv ^ (pk.n - enc).toNat).fmod pk.nsquare,
      z ^ (pk.n - enc).toNat, Nat.Coprime.pow_left _ hzco, ?_, ?_⟩
    · rw [if_pos hbig]
      show (do
        let neg_c ← invert e.ciphertext pk.nsquare
        powmod neg_c (pk.n - enc).toNat pk.nsquare : Except Err Int) = _
      rw [hcinv]
      show powmod cinv (pk.n - enc).toNat pk.nsquare = _
      rw [powmod_ok _ hS1]
    · set K := (pk.n - enc).toNat with hK
      have hKE : K + enc.toNat = n := by omega
      have hcinvmod' : e.ciphertext * cinv ≡ 1 [ZMOD (n : Int) ^ 2] := by
        rw [hsq2, ← hSn]
        exact hcinvmod
      have h1 : e.ciphertext ^ K * cinv ^ K ≡ 1 [ZMOD (n : Int) ^ 2] := by
        have h := hcinvmod'.pow K
        rwa [mul_pow, one_pow] at h
      have h2 : e.ciphertext ^ K ≡
          (1 + (n : Int)) ^ (M * K) * ((u : Int) ^ K) ^ n
          [ZMOD (n : Int) ^ 2] := by
        have h := hc.pow K
        have heq : ((1 + (n : Int)) ^ M * (u : Int) ^ n) ^ K =
            (1 + (n : Int)) ^ (M * K) * ((u : Int) ^ K) ^ n := by ring
        rwa [heq] at h
      have h3 : (1 + (n : Int)) ^ (M * K) * ((u : Int) ^ K) ^ n * cinv ^ K
          ≡ 1 [ZMOD (n : Int) ^ 2] := (h2.symm.mul_right _).trans h1
      have h5 : ((1 + (n : Int)) ^ (M * enc.toNat) * ((z : Int) ^ K) ^ n) *
          ((1 + (n : Int)) ^ (M * K) * ((u : Int) ^ K) ^ n * cinv ^ K) =
          (1 + (n : Int)) ^ (M * enc.toNat + M * K) *
            (((u : Int) * (z : Int)) ^ K) ^ n * cinv ^ K := by ring
      have h6 : M * enc.toNat + M * K = M * n := by
        rw [← hKE]; ring
      have h7 : (1 + (n : Int)) ^ (M * n) *
          (((u : Int) * (z : Int)) ^ K) ^ n * cinv ^ K ≡
          1 * 1 * cinv ^ K [ZMOD (n : Int) ^ 2] := by
        refine Int.ModEq.mul (Int.ModEq.mul (one_add_pow_n_mul n M) ?_)
          (Int.ModEq.refl _)
        have h8 := hzInt.pow K
        rw [one_pow] at h8
        have h9 := h8.pow n
        rwa [one_pow] at h9
      have h8 : (1 + (n : Int)) ^ (M * enc.toNat) * ((z : Int) ^ K) ^ n ≡
          cinv ^ K [ZMOD (n : Int) ^ 2] := by
        calc (1 + (n : Int)) ^ (M * enc.toNat) * ((z : Int) ^ K) ^ n
            ≡ ((1 + (n : Int)) ^ (M * enc.toNat) * ((z : Int) ^ K) ^ n) *
              ((1 + (n : Int)) ^ (M * K) * ((u : Int) ^ K) ^ n * cinv ^ K)
              [ZMOD (n : Int) ^ 2] := by
                conv_lhs => rw [← mul_one ((1 + (n : Int)) ^ (M * enc.toNat) *
                  ((z : Int) ^ K) ^ n)]
                exact h3.symm.mul_left _
          _ = (1 + (n : Int)) ^ (M * n) *
              (((u : Int) * (z : Int)) ^ K) ^ n * cinv ^ K := by rw [h5, h6]
          _ ≡ 1 * 1 * cinv ^ K [ZMOD (n : Int) ^ 2] := h7
          _ = cinv ^ K := by ring
      have hcast : ((z ^ K : Nat) : Int) = (z : Int) ^ K := by push_cast; ring
      rw [hcast]
      exact (hfm _).trans h8.symm
  · -- direct branch
    rw [if_neg hbig]
    refine ⟨(e.ciphertext ^ enc.toNat).fmod pk.nsquare, u ^ enc.toNat,
      Nat.Coprime.pow_left _ hu, ?_, ?_⟩
    · rw [powmod_ok _ hS1]
    · have h := hc.pow enc.toNat
      have heq : ((1 + (n : Int)) ^ M * (u : Int) ^ n) ^ enc.toNat =
          (1 + (n : Int)) ^ (M * enc.toNat) * ((u : Int) ^ enc.toNat) ^ n := by
        ring
      rw [heq] at h
      have hcast : ((u ^ enc.toNat : Nat) : Int) = (u : Int) ^ enc.toNat := by
        push_cast; ring
      rw [hcast]
      exact (hfm _).trans h

/-- `__mul__` by an in-range integer scalar: the product ciphertext is in
Paillier normal form for `M · (k mod n)` and the exponent is unchanged. -/
theorem mul_int_form {n : Nat} (pk : PaillierPublicKey)
    (hpk : pk.n = (n : Int)) (hn2 : 2 ≤ pk.n)
    {e : EncryptedNumber} {M u : Nat} (hu : u.Coprime n)
    (hc : e.ciphertext ≡ (1 + (n : Int)) ^ M * (u : Int) ^ n
      [ZMOD (n : Int) ^ 2])
    (hc0 : 0 ≤ e.ciphertext)
    {k : Int} (hk : |k| ≤ pk.max_int) :
    ∃ (c' : Int) (u' : Nat), u'.Coprime n ∧
      EncryptedNumber.mul pk e k = .ok ⟨c', e.exponent + 0, false⟩ ∧
      c' ≡ (1 + (n : Int)) ^ (M * (k.fmod pk.n).toNat) * ((u' : Nat) : Int) ^ n
        [ZMOD (n : Int) ^ 2] := by
  have hNpos : (0 : Int) < pk.n := by omega
  obtain ⟨c', u', hco', heq', hform'⟩ := raw_mul_form pk hpk hn2 hu hc hc0
    (fmod_nonneg' k hNpos) (fmod_lt_of_pos k hNpos)
  refine ⟨c', u', hco', ?_, hform'⟩
  unfold EncryptedNumber.mul
  rw [encode_int_ok pk hk]
  show (do
    let product ← EncryptedNumber.raw_mul pk e (k.fmod pk.n)
    pure (⟨product, e.exponent + 0, false⟩ : EncryptedNumber) :
    Except Err EncryptedNumber) = _
  rw [heq']
  rfl

section ExceptHelpers

@[simp] theorem except_bind_ok {α β : Type} (a : α) (f : α → Except Err β) :
    (Except.ok a >>= f) = f a := rfl

@[simp] theorem except_pure {α : Type} (a : α) :
    (pure a : Except Err α) = Except.ok a := rfl

@[simp] theorem except_bind_error {α β : Type} (e : Err)
    (f : α → Except Err β) :
    ((Except.error e : Except Err α) >>= f) = .error e := rfl

end ExceptHelpers

section FlagLemmas

/-- Addition of two ciphertexts always returns a fresh instance. -/
theorem add_encrypted_flag (pk : PaillierPublicKey) {a b s : EncryptedNumber}
    (h : EncryptedNumber.add_encrypted pk a b = .ok s) :
    s.is_obfuscated = false := by
  unfold EncryptedNumber.add_encrypted at h
  by_cases h1 : b.exponent < a.exponent
  · simp only [if_pos h1] at h
    rcases hA : EncryptedNumber.decrease_exponent_to pk a b.exponent
      with e' | a'
    · simp only [hA, except_bind_error, except_pure, except_bind_ok] at h
      injection h
    · simp only [hA, except_bind_error, except_pure, except_bind_ok] at h
      injection h with h'
      rw [← h']
  · simp only [if_neg h1] at h
    by_cases h2 : a.exponent < b.exponent
    · simp only [if_pos h2] at h
      rcases hB : EncryptedNumber.decrease_exponent_to pk b a.exponent
        with e' | b'
      · simp only [hB, except_bind_error, except_pure, except_bind_ok] at h
        injection h
      · simp only [hB, except_bind_error, except_pure, except_bind_ok] at h
        injection h with h'
        rw [← h']
    · simp only [if_neg h2, except_pure, except_bind_ok] at h
      injection h with h'
      rw [← h']

/-- Scalar multiplication always returns a fresh instance. -/
theorem mul_flag (pk : PaillierPublicKey) {a s : EncryptedNumber} {k : Int}
    (h : EncryptedNumber.mul pk a k = .ok s) : s.is_obfuscated = false := by
  unfold EncryptedNumber.mul at h
  rcases hE : EncodedNumber.encode pk k none with e' | enc
  · simp only [hE, except_bind_error] at h
    injection h
  · simp only [hE, except_bind_ok] at h
    rcases hP : EncryptedNumber.raw_mul pk a enc.encoding with e' | c'
    · simp only [hP, except_bind_error] at h
      injection h
    · simp only [hP, except_pure, except_bind_ok] at h
      injection h with h'
      rw [← h']

/-- Subtraction always returns a fresh instance. -/
theorem sub_flag (pk : PaillierPublicKey) {a b s : EncryptedNumber}
    (h : EncryptedNumber.sub pk a b = .ok s) : s.is_obfuscated = false := by
  unfold EncryptedNumber.sub at h
  rcases hM : EncryptedNumber.mul pk b (-1) with e' | nb
  · simp only [hM, except_bind_error] at h
    injection h
  · simp only [hM, except_bind_ok] at h
    exact add_encrypted_flag pk h

/-- Addition of a plaintext encoding always returns a fresh instance. -/
theorem add_encoded_flag (pk : PaillierPublicKey) {a : EncryptedNumber}
    {enc : EncodedNumber} {s : EncryptedNumber}
    (h : EncryptedNumber.add_encoded pk a enc = .ok s) :
    s.is_obfuscated = false := by
  unfold EncryptedNumber.add_encoded at h
  by_cases h1 : enc.exponent < a.exponent
  · simp only [if_pos h1] at h
    rcases hA : EncryptedNumber.decrease_exponent_to pk a enc.exponent
      with e' | a'
    · simp only [hA, except_bind_error, except_pure, except_bind_ok] at h
      injection h
    · simp only [hA, except_bind_error, except_pure, except_bind_ok] at h
      rcases hR : pk.raw_encrypt enc.encoding 1 with e' | c'
      · simp only [hR, except_bind_error] at h
        injection h
      · simp only [hR, except_bind_ok, except_pure] at h
        injection h with h'
        rw [← h']
  · simp only [if_neg h1] at h
    by_cases h2 : a.exponent < enc.exponent
    · simp only [if_pos h2] at h
      rcases hB : EncodedNumber.decrease_exponent_to pk enc a.exponent
        with e' | b'
      · simp only [hB, except_bind_error, except_pure, except_bind_ok] at h
        injection h
      · simp only [hB, except_bind_error, except_pure, except_bind_ok] at h
        rcases hR : pk.raw_encrypt b'.encoding 1 with e' | c'
        · simp only [hR, except_bind_error] at h
          injection h
        · simp only [hR, except_bind_ok, except_pure] at h
          injection h with h'
          rw [← h']
    · simp only [if_neg h2, except_pure, except_bind_ok] at h
      rcases hR : pk.raw_encrypt enc.encoding 1 with e' | c'
      · simp only [hR, except_bind_error] at h
        injection h
      · simp only [hR, except_bind_ok, except_pure] at h
        injection h with h'
        rw [← h']

/-- `obfuscate` always returns an obfuscated instance. -/
theorem obfuscate_flag (pk : PaillierPublicKey) {e e' : EncryptedNumber}
    {r : Int} (h : EncryptedNumber.obfuscate pk e r = .ok e') :
    e'.is_obfuscated = true := by
  unfold EncryptedNumber.obfuscate at h
  rcases hP : powmod r pk.n.toNat pk.nsquare with err | w
  · simp only [hP, except_bind_error] at h
    injection h
  · simp only [hP, except_bind_ok, except_pure] at h
    injection h with h'
    rw [← h']

/-- A secure reveal leaves the instance obfuscated. -/
theorem reveal_secure_flag (pk : PaillierPublicKey) {e e' : EncryptedNumber}
    {r v : Int}
    (h : EncryptedNumber.reveal pk e true r = .ok (v, e')) :
    e'.is_obfuscated = true := by
  unfold EncryptedNumber.reveal at h
  cases hf : e.is_obfuscated
  · rw [hf] at h
    simp only [Bool.not_false, Bool.and_true, if_pos] at h
    rcases hO : EncryptedNumber.obfuscate pk e r with err | eo
    · simp only [hO, except_bind_error] at h
      injection h
    · simp only [hO, except_bind_ok, except_pure] at h
      injection h with h'
      injection h' with h1 h2
      rw [← h2]
      exact obfuscate_flag pk hO
  · rw [hf] at h
    simp only [Bool.not_true, Bool.and_false, if_neg, Bool.false_eq_true,
      not_false_eq_true, except_pure] at h
    injection h with h'
    injection h' with h1 h2
    rw [← h2, hf]

/-- An insecure reveal never mutates the instance. -/
theorem reveal_insecure_eq (pk : PaillierPublicKey) {e e' : EncryptedNumber}
    {r v : Int}
    (h : EncryptedNumber.reveal pk e false r = .ok (v, e')) : e' = e := by
  unfold EncryptedNumber.reveal at h
  simp only [Bool.false_and, if_neg, Bool.false_eq_true, not_false_eq_true,
    except_pure] at h
  injection h with h'
  injection h' with h1 h2
  exact h2.symm

/-- A secure reveal of an already obfuscated instance does not mutate it. -/
theorem reveal_obfuscated_eq (pk : PaillierPublicKey) {e e' : EncryptedNumber}
    {r v : Int} (hf : e.is_obfuscated = true)
    (h : EncryptedNumber.reveal pk e true r = .ok (v, e')) : e' = e := by
  unfold EncryptedNumber.reveal at h
  rw [hf] at h
  simp only [Bool.not_true, Bool.and_false, if_neg, Bool.false_eq_true,
    not_false_eq_true, except_pure] at h
  injection h with h'
  injection h' with h1 h2
  exact h2.symm

end FlagLemmas

/-- Range of the CRT recombination: `crt mp mq ∈ [0, p·q)` whenever
`mp ∈ [0, p)`, for any `mq`. -/
theorem crt_bounds (sk : PaillierPrivateKey) (hp : 0 < sk.p) (hq : 0 < sk.q)
    (mp mq : Int) (hmp0 : 0 ≤ mp) (hmpp : mp < sk.p) :
    0 ≤ sk.crt mp mq ∧ sk.crt mp mq < sk.p * sk.q := by
  have h2 := fmod_lt_of_pos ((mq - mp) * sk.p_inverse) hq
  have h4 := fmod_nonneg' ((mq - mp) * sk.p_inverse) hq
  constructor
  · show 0 ≤ mp + ((mq - mp) * sk.p_inverse).fmod sk.q * sk.p
    nlinarith
  · show mp + ((mq - mp) * sk.p_inverse).fmod sk.q * sk.p < sk.p * sk.q
    nlinarith

end NumberTheory

section Claims

/-- C1 (as stated, refuted): with `p = 5`, `q = 7`, `n = 35`, plaintext
`v = 1` (well within `max_int = 10`) and obfuscation factor `r = 5 ∈ [1, n)`
drawn during encryption, decrypting the encryption of `1` returns `8`:
the round-trip fails for obfuscation factors sharing a factor with `n`. -/
theorem C1_roundtrip_counterexample :
    (1 : Int) ≤ 5 ∧ (5 : Int) < (⟨35⟩ : PaillierPublicKey).n ∧
    |(1 : Int)| ≤ (⟨35⟩ : PaillierPublicKey).max_int ∧
    PaillierPrivateKey.mk' ⟨35⟩ ((5 : Nat) : Int) ((7 : Nat) : Int) =
      .ok ⟨5, 7, 25, 49, 3, 2, 4⟩ ∧
    PaillierPublicKey.encrypt ⟨35⟩ 1 none 5 = .ok ⟨675, 0, true⟩ ∧
    PaillierPrivateKey.decrypt ⟨35⟩ ⟨5, 7, 25, 49, 3, 2, 4⟩ ⟨675, 0, true⟩ =
      .ok 8 ∧ (8 : Int) ≠ 1 :=
  ⟨by decide, by decide, by decide, by rfl, by rfl, by rfl, by decide⟩

/-- C1 (amended): for every integer `v` with `|v| ≤ max_int` and every
obfuscation factor `r ∈ [1, n)` that is coprime to `n`, decrypting the
encryption of `v` under the matching private key returns `v`. -/
theorem C1_roundtrip_coprime {p q : Nat} (hp : p.Prime) (hq : q.Prime)
    (hlt : p < q) (pk : PaillierPublicKey)
    (hpk : pk.n = ((p * q : Nat) : Int))
    {sk : PaillierPrivateKey}
    (hsk : PaillierPrivateKey.mk' pk (p : Int) (q : Int) = .ok sk)
    {v : Int} (hv : |v| ≤ pk.max_int)
    {r : Int} (hr1 : 1 ≤ r) (_hrn : r < pk.n)
    (hco : Int.gcd r pk.n = 1) :
    ∃ e, pk.encrypt v none r = .ok e ∧
      PaillierPrivateKey.decrypt pk sk e = .ok v := by
  have hn2' : 2 ≤ p * q :=
    le_trans (by norm_num) (Nat.mul_le_mul hp.two_le hq.two_le)
  have hn2 : 2 ≤ pk.n := by rw [hpk]; exact_mod_cast hn2'
  have hNpos : (0 : Int) < pk.n := by omega
  have hnpos : 0 < p * q := by omega
  refine ⟨_, encrypt_none_ok pk hn2 hv r, ?_⟩
  rw [hpk] at hco
  have hcform := encrypted_form hnpos pk hpk (fmod_nonneg' v hNpos)
    (show (0 : Int) ≤ r by omega)
  have hMv : (((v.fmod pk.n).toNat : Nat) : Int) ≡ v [ZMOD pk.n] := by
    rw [Int.toNat_of_nonneg (fmod_nonneg' v hNpos)]
    exact fmod_modEq v hNpos
  exact decrypt_form_ok hp hq hlt rfl pk hpk hsk rfl
    (int_gcd_to_nat_coprime (by omega) hco) hcform hv hMv

/-- Witness for the amended C1 at `p = 5`, `q = 7`, `v = -3`, `r = 2`. -/
theorem C1_roundtrip_coprime_witness :
    ∃ e, PaillierPublicKey.encrypt ⟨35⟩ (-3) none 2 = .ok e ∧
      PaillierPrivateKey.decrypt ⟨35⟩ ⟨5, 7, 25, 49, 3, 2, 4⟩ e = .ok (-3) :=
  C1_roundtrip_coprime (p := 5) (q := 7) (by decide) (by decide) (by decide)
    ⟨35⟩ (by rfl) (by rfl) (by decide) (by decide) (by decide) (by decide)

/-- C2 (as stated, refuted): with `n = 35`, `a = b = 1`, and obfuscation
factors `5` and `1` drawn during the two encryptions, the sum of the
ciphertexts decrypts to an `OverflowDetectedError`, not to `2`; the claim
fails for obfuscation factors sharing a factor with `n`. -/
theorem C2_homomorphic_counterexample :
    PaillierPublicKey.encrypt ⟨35⟩ 1 none 5 = .ok ⟨675, 0, true⟩ ∧
    PaillierPublicKey.encrypt ⟨35⟩ 1 none 1 = .ok ⟨36, 0, true⟩ ∧
    EncryptedNumber.add_encrypted ⟨35⟩ ⟨675, 0, true⟩ ⟨36, 0, true⟩ =
      .ok ⟨1025, 0, false⟩ ∧
    PaillierPrivateKey.mk' ⟨35⟩ ((5 : Nat) : Int) ((7 : Nat) : Int) =
      .ok ⟨5, 7, 25, 49, 3, 2, 4⟩ ∧
    PaillierPrivateKey.decrypt ⟨35⟩ ⟨5, 7, 25, 49, 3, 2, 4⟩ ⟨1025, 0, false⟩ =
      .error .overflow ∧
    |(1 : Int)| ≤ (⟨35⟩ : PaillierPublicKey).max_int ∧
    |(1 : Int) + 1| ≤ (⟨35⟩ : PaillierPublicKey).max_int :=
  ⟨by rfl, by rfl, by rfl, by rfl, by rfl, by decide, by decide⟩

/-- C2 (amended): for all integers `a`, `b` within `± max_int` whose sum is
within `± max_int`, provided the obfuscation factors drawn during encryption
are coprime to `n`, `decrypt(encrypt(a) + encrypt(b)) = a + b`; and for every
integer `k` with `k` and `a·k` within `± max_int`,
`decrypt(encrypt(a) × k) = a·k` — addition aligning both operands to the
lesser exponent (a no-op here, both exponents being `0`) and combining
ciphertexts by multiplication mod `n²`. -/
theorem C2_homomorphic_coprime {p q : Nat} (hp : p.Prime) (hq : q.Prime)
    (hlt : p < q) (pk : PaillierPublicKey)
    (hpk : pk.n = ((p * q : Nat) : Int))
    {sk : PaillierPrivateKey}
    (hsk : PaillierPrivateKey.mk' pk (p : Int) (q : Int) = .ok sk)
    {a b : Int} (ha : |a| ≤ pk.max_int) (hb : |b| ≤ pk.max_int)
    (hab : |a + b| ≤ pk.max_int)
    {r₁ r₂ : Int} (hr₁ : 1 ≤ r₁) (hco₁ : Int.gcd r₁ pk.n = 1)
    (hr₂ : 1 ≤ r₂) (hco₂ : Int.gcd r₂ pk.n = 1)
    {k : Int} (hk : |k| ≤ pk.max_int) (hak : |a * k| ≤ pk.max_int) :
    ∃ ea eb s m', pk.encrypt a (some r₁) 1 = .ok ea ∧
      pk.encrypt b (some r₂) 1 = .ok eb ∧
      EncryptedNumber.add_encrypted pk ea eb = .ok s ∧
      PaillierPrivateKey.decrypt pk sk s = .ok (a + b) ∧
      EncryptedNumber.mul pk ea k = .ok m' ∧
      PaillierPrivateKey.decrypt pk sk m' = .ok (a * k) := by
  have hn2' : 2 ≤ p * q :=
    le_trans (by norm_num) (Nat.mul_le_mul hp.two_le hq.two_le)
  have hn2 : 2 ≤ pk.n := by rw [hpk]; exact_mod_cast hn2'
  have hNpos : (0 : Int) < pk.n := by omega
  have hnpos : 0 < p * q := by omega
  have hSn : pk.nsquare = ((p * q : Nat) : Int) * ((p * q : Nat) : Int) := by
    unfold PaillierPublicKey.nsquare; rw [hpk]
  rw [hpk] at hco₁ hco₂
  have hu₁ := int_gcd_to_nat_coprime (n := p * q) (by omega) hco₁
  have hu₂ := int_gcd_to_nat_coprime (n := p * q) (by omega) hco₂
  -- the two encryptions
  have hea := encrypt_some_ok pk hn2 ha (r := r₁) (by omega) 1
  have heb := encrypt_some_ok pk hn2 hb (r := r₂) (by omega) 1
  set ca : Int := ((pk.n * a.fmod pk.n + 1) * r₁ ^ pk.n.toNat).fmod pk.nsquare
    with hca_def
  set cb : Int := ((pk.n * b.fmod pk.n + 1) * r₂ ^ pk.n.toNat).fmod pk.nsquare
    with hcb_def
  have hca : ca ≡ (1 + ((p * q : Nat) : Int)) ^ (a.fmod pk.n).toNat *
      ((r₁.toNat : Nat) : Int) ^ (p * q) [ZMOD ((p * q : Nat) : Int) ^ 2] :=
    encrypted_form hnpos pk hpk (fmod_nonneg' a hNpos) (by omega)
  have hcb : cb ≡ (1 + ((p * q : Nat) : Int)) ^ (b.fmod pk.n).toNat *
      ((r₂.toNat : Nat) : Int) ^ (p * q) [ZMOD ((p * q : Nat) : Int) ^ 2] :=
    encrypted_form hnpos pk hpk (fmod_nonneg' b hNpos) (by omega)
  have hMa : (((a.fmod pk.n).toNat : Nat) : Int) ≡ a [ZMOD pk.n] := by
    rw [Int.toNat_of_nonneg (fmod_nonneg' a hNpos)]
    exact fmod_modEq a hNpos
  have hMb : (((b.fmod pk.n).toNat : Nat) : Int) ≡ b [ZMOD pk.n] := by
    rw [Int.toNat_of_nonneg (fmod_nonneg' b hNpos)]
    exact fmod_modEq b hNpos
  -- the homomorphic sum
  have hadd : EncryptedNumber.add_encrypted pk ⟨ca, 0, false⟩ ⟨cb, 0, false⟩ =
      .ok ⟨EncryptedNumber.raw_add pk ca cb, 0, false⟩ :=
    add_encrypted_same_exp pk rfl
  have hsum_form : EncryptedNumber.raw_add pk ca cb ≡
      (1 + ((p * q : Nat) : Int)) ^
        ((a.fmod pk.n).toNat + (b.fmod pk.n).toNat) *
      ((r₁.toNat * r₂.toNat : Nat) : Int) ^ (p * q)
      [ZMOD ((p * q : Nat) : Int) ^ 2] := by
    show (ca * cb).fmod pk.nsquare ≡ _ [ZMOD _]
    rw [hSn]
    exact form_mul hnpos hca hcb
  have hdec_sum : PaillierPrivateKey.decrypt pk sk
      ⟨EncryptedNumber.raw_add pk ca cb, 0, false⟩ = .ok (a + b) := by
    refine decrypt_form_ok hp hq hlt rfl pk hpk hsk rfl
      (Nat.Coprime.mul hu₁ hu₂) hsum_form hab ?_
    have := hMa.add hMb
    push_cast at this ⊢
    exact this
  -- the scalar product
  have hca0 : (0 : Int) ≤ ca := by
    rw [hca_def]
    refine fmod_nonneg' _ ?_
    rw [hSn]
    positivity
  obtain ⟨c', u', hu', hmul, hform'⟩ :=
    mul_int_form (e := ⟨ca, 0, false⟩) pk hpk hn2 hu₁ hca hca0 hk
  have hdec_mul : PaillierPrivateKey.decrypt pk sk
      ⟨c', (0 : Int) + 0, false⟩ = .ok (a * k) := by
    refine decrypt_form_ok hp hq hlt rfl pk hpk hsk (by norm_num)
      hu' hform' hak ?_
    have hE : (((k.fmod pk.n).toNat : Nat) : Int) ≡ k [ZMOD pk.n] := by
      rw [Int.toNat_of_nonneg (fmod_nonneg' k hNpos)]
      exact fmod_modEq k hNpos
    have := hMa.mul hE
    push_cast at this ⊢
    exact this
  exact ⟨⟨ca, 0, false⟩, ⟨cb, 0, false⟩, _, ⟨c', (0 : Int) + 0, false⟩,
    hea, heb, hadd, hdec_sum, hmul, hdec_mul⟩

/-- Witness for the amended C2 at `p = 5`, `q = 7`, `a = 2`, `b = 3`,
`r₁ = 2`, `r₂ = 3`, `k = -2`. -/
theorem C2_homomorphic_coprime_witness :
    ∃ ea eb s m', PaillierPublicKey.encrypt ⟨35⟩ 2 (some 2) 1 = .ok ea ∧
      PaillierPublicKey.encrypt ⟨35⟩ 3 (some 3) 1 = .ok eb ∧
      EncryptedNumber.add_encrypted ⟨35⟩ ea eb = .ok s ∧
      PaillierPrivateKey.decrypt ⟨35⟩ ⟨5, 7, 25, 49, 3, 2, 4⟩ s = .ok (2 + 3) ∧
      EncryptedNumber.mul ⟨35⟩ ea (-2) = .ok m' ∧
      PaillierPrivateKey.decrypt ⟨35⟩ ⟨5, 7, 25, 49, 3, 2, 4⟩ m' =
        .ok (2 * -2) :=
  C2_homomorphic_coprime (p := 5) (q := 7) (by decide) (by decide) (by decide)
    ⟨35⟩ (by rfl) (by rfl) (by decide) (by decide) (by decide) (by decide)
    (by decide) (by decide) (by decide) (by decide) (by decide)

/-- C3: the two branches of `raw_encrypt` agree — for every residue `m` in
the large range `n - max_int ≤ m < n`, the inverse-based shortcut
`invert((n·(n-m)+1) mod n², n²)` equals the direct value `(n·m+1) mod n²`,
so for every `m ∈ [0, n)` and `r ∈ [1, n)`,
`raw_encrypt(m, r) = ((n·m+1)·rⁿ) mod n²`. -/
theorem C3_raw_encrypt_branches (pk : PaillierPublicKey) (hn2 : 2 ≤ pk.n)
    (m r : Int) (_hm0 : 0 ≤ m) (_hmn : m < pk.n) (_hr1 : 1 ≤ r)
    (_hrn : r < pk.n) :
    (pk.n - pk.max_int ≤ m →
      invert ((pk.n * (pk.n - m) + 1).fmod pk.nsquare) pk.nsquare =
        .ok ((pk.n * m + 1).fmod pk.nsquare)) ∧
    pk.raw_encrypt m r =
      .ok (((pk.n * m + 1) * r ^ pk.n.toNat).fmod pk.nsquare) :=
  ⟨fun _ => invert_shortcut pk hn2 m, raw_encrypt_ok pk hn2 m r⟩

/-- Witness for C3 at `n = 35`, `m = 30`, `r = 2`. -/
theorem C3_raw_encrypt_branches_witness :
    ((⟨35⟩ : PaillierPublicKey).n - (⟨35⟩ : PaillierPublicKey).max_int ≤ 30 →
      invert (((⟨35⟩ : PaillierPublicKey).n *
          ((⟨35⟩ : PaillierPublicKey).n - 30) + 1).fmod
          (⟨35⟩ : PaillierPublicKey).nsquare)
        (⟨35⟩ : PaillierPublicKey).nsquare =
        .ok (((⟨35⟩ : PaillierPublicKey).n * 30 + 1).fmod
          (⟨35⟩ : PaillierPublicKey).nsquare)) ∧
    PaillierPublicKey.raw_encrypt ⟨35⟩ 30 2 =
      .ok ((((⟨35⟩ : PaillierPublicKey).n * 30 + 1) *
        2 ^ (⟨35⟩ : PaillierPublicKey).n.toNat).fmod
        (⟨35⟩ : PaillierPublicKey).nsquare) :=
  C3_raw_encrypt_branches ⟨35⟩ (by decide) 30 2 (by decide) (by decide)
    (by decide) (by decide)

/-- C4: `decode` fails with `CorruptedEncodingError` exactly when the
residue is `≥ n`; otherwise it classifies the residue as positive when
`residue ≤ max_int` (mantissa = residue), as negative when
`residue ≥ n - max_int` (mantissa = residue − n), and fails with
`OverflowDetectedError` exactly on the dead zone
`(max_int, n - max_int)`. -/
theorem C4_decode_classification (pk : PaillierPublicKey) (hn3 : 3 ≤ pk.n)
    (x : Int) :
    (EncodedNumber.decodeMantissa pk x = .error .corrupted ↔ pk.n ≤ x) ∧
    (x ≤ pk.max_int → EncodedNumber.decodeMantissa pk x = .ok x) ∧
    (pk.n - pk.max_int ≤ x → x < pk.n →
      EncodedNumber.decodeMantissa pk x = .ok (x - pk.n)) ∧
    (EncodedNumber.decodeMantissa pk x = .error .overflow ↔
      pk.max_int < x ∧ x < pk.n - pk.max_int) := by
  obtain ⟨hmi0, hmi2⟩ := max_int_facts pk hn3
  unfold EncodedNumber.decodeMantissa
  split_ifs with h1 h2 h3
  · exact ⟨⟨fun _ => h1, fun _ => rfl⟩,
      fun h => absurd h1 (by omega),
      fun h h' => absurd h1 (by omega),
      ⟨fun h => by injection h with h'; exact absurd h' (by decide),
        fun h => absurd h1 (by omega)⟩⟩
  · exact ⟨⟨fun h => h.elim, fun h => absurd h h1⟩,
      fun _ => rfl,
      fun h _ => absurd h (by omega),
      ⟨fun h => h.elim, fun h => absurd h.1 (not_lt.mpr h2)⟩⟩
  · exact ⟨⟨fun h => h.elim, fun h => absurd h h1⟩,
      fun h => absurd h h2,
      fun _ _ => rfl,
      ⟨fun h => h.elim, fun h => absurd h3 (by omega)⟩⟩
  · exact ⟨⟨fun h => by injection h with h'; exact absurd h' (by decide),
      fun h => absurd h h1⟩,
      fun h => absurd h h2,
      fun h _ => absurd h h3,
      ⟨fun _ => by constructor <;> omega, fun _ => rfl⟩⟩

/-- Witness for C4 at `n = 35`, residue `17` (dead zone). -/
theorem C4_decode_classification_witness :
    (EncodedNumber.decodeMantissa ⟨35⟩ 17 = .error .corrupted ↔
      (⟨35⟩ : PaillierPublicKey).n ≤ 17) ∧
    ((17 : Int) ≤ (⟨35⟩ : PaillierPublicKey).max_int →
      EncodedNumber.decodeMantissa ⟨35⟩ 17 = .ok 17) ∧
    ((⟨35⟩ : PaillierPublicKey).n - (⟨35⟩ : PaillierPublicKey).max_int ≤ 17 →
      (17 : Int) < (⟨35⟩ : PaillierPublicKey).n →
      EncodedNumber.decodeMantissa ⟨35⟩ 17 =
        .ok (17 - (⟨35⟩ : PaillierPublicKey).n)) ∧
    (EncodedNumber.decodeMantissa ⟨35⟩ 17 = .error .overflow ↔
      (⟨35⟩ : PaillierPublicKey).max_int < 17 ∧
      (17 : Int) < (⟨35⟩ : PaillierPublicKey).n -
        (⟨35⟩ : PaillierPublicKey).max_int) :=
  C4_decode_classification ⟨35⟩ (by decide) 17

/-- C6 (as stated, refuted): `powmod(1, 5, 1)` returns `1`, but the
mathematically correct residue `1^5 mod 1` is `0`; the `base == 1` shortcut
is not corrected for modulus `1`, and the same shortcut also prevents any
failure for modulus `≤ 0` when the base is `1`. -/
theorem C6_powmod_counterexample :
    powmod 1 5 1 = .ok 1 ∧ ((1 : Int) ^ 5).fmod 1 = 0 ∧ (1 : Int) ≠ 0 ∧
    powmod 1 5 0 = .ok 1 :=
  ⟨by rfl, by decide, by decide, by rfl⟩

/-- C6 (amended): `powmod` returns `base^exponent mod modulus` for every
modulus `> 1` (including `base = 1`); when `base = 1` it returns `1`
unconditionally, which is wrong for modulus `1` (whose true residue is `0`)
and skips the failure for modulus `≤ 0`; it fails (`ValueError`) exactly
when `base ≠ 1` and modulus `= 0`; for any other nonzero modulus and
`base ≠ 1` it returns the floor-mod residue rather than failing. -/
theorem C6_powmod_amended (a : Int) (b : Nat) (c : Int) :
    (1 < c → powmod a b c = .ok ((a ^ b).fmod c)) ∧
    (powmod 1 b c = .ok 1) ∧
    (a ≠ 1 → c = 0 → powmod a b c = .error .domain) ∧
    (a ≠ 1 → c ≠ 0 → powmod a b c = .ok ((a ^ b).fmod c)) := by
  refine ⟨fun h => powmod_ok b h, by simp [powmod], ?_, ?_⟩
  · intro h1 h2
    simp [powmod, h1, h2]
  · intro h1 h2
    simp [powmod, h1, h2]

/-- Witness for the amended C6 at `(2, 3, 5)`, `(1, 3, 0)`, `(2, 3, 0)`. -/
theorem C6_powmod_amended_witness :
    powmod 2 3 5 = .ok 3 ∧ powmod 1 3 0 = .ok 1 ∧
    powmod 2 3 0 = .error .domain := by
  refine ⟨?_, (C6_powmod_amended 1 3 0).2.1,
    (C6_powmod_amended 2 3 0).2.2.1 (by decide) rfl⟩
  have h := (C6_powmod_amended 2 3 5).1 (by decide)
  rw [h]
  rfl

/-- C7: the obfuscation flag is two-state — `__init__` starts fresh; every
algebraic producer (ciphertext addition, encoded addition, scalar
multiplication, subtraction) returns a new fresh instance; `obfuscate()`
and a `ciphertext(be_secure=True)` reveal of a fresh instance transition to
obfuscated; and no operation ever returns an obfuscated instance to the
fresh state (an insecure reveal, or a secure reveal of an obfuscated
instance, leaves the instance unchanged). -/
theorem C7_flag_state_machine (pk : PaillierPublicKey) :
    (∀ c e : Int, (EncryptedNumber.make c e).is_obfuscated = false) ∧
    (∀ a b s, EncryptedNumber.add_encrypted pk a b = .ok s →
      s.is_obfuscated = false) ∧
    (∀ a enc s, EncryptedNumber.add_encoded pk a enc = .ok s →
      s.is_obfuscated = false) ∧
    (∀ a k s, EncryptedNumber.mul pk a k = .ok s →
      s.is_obfuscated = false) ∧
    (∀ a b s, EncryptedNumber.sub pk a b = .ok s →
      s.is_obfuscated = false) ∧
    (∀ e r e', EncryptedNumber.obfuscate pk e r = .ok e' →
      e'.is_obfuscated = true) ∧
    (∀ e r v e', EncryptedNumber.reveal pk e true r = .ok (v, e') →
      e'.is_obfuscated = true) ∧
    (∀ e r v e', EncryptedNumber.reveal pk e false r = .ok (v, e') →
      e' = e) ∧
    (∀ e r v e', e.is_obfuscated = true →
      EncryptedNumber.reveal pk e true r = .ok (v, e') → e' = e) :=
  ⟨fun _ _ => rfl,
    fun _ _ _ h => add_encrypted_flag pk h,
    fun _ _ _ h => add_encoded_flag pk h,
    fun _ _ _ h => mul_flag pk h,
    fun _ _ _ h => sub_flag pk h,
    fun _ _ _ h => obfuscate_flag pk h,
    fun _ _ _ _ h => reveal_secure_flag pk h,
    fun _ _ _ _ h => reveal_insecure_eq pk h,
    fun _ _ _ _ hf h => reveal_obfuscated_eq pk hf h⟩

/-- Witness for C7 at `n = 35` on concrete instances. -/
theorem C7_flag_state_machine_witness :
    (EncryptedNumber.make 7 0).is_obfuscated = false ∧
    (∃ s, EncryptedNumber.add_encrypted ⟨35⟩ ⟨36, 0, false⟩ ⟨36, 0, false⟩ =
      .ok s ∧ s.is_obfuscated = false) ∧
    (∃ e', EncryptedNumber.obfuscate ⟨35⟩ ⟨36, 0, false⟩ 2 = .ok e' ∧
      e'.is_obfuscated = true) := by
  have h := C7_flag_state_machine ⟨35⟩
  refine ⟨h.1 7 0, ⟨⟨71, 0, false⟩, by rfl,
      h.2.1 ⟨36, 0, false⟩ ⟨36, 0, false⟩ ⟨71, 0, false⟩ (by rfl)⟩,
    ⟨⟨(36 * ((2 : Int) ^ 35).fmod 1225).fmod 1225, 0, true⟩, by rfl,
      h.2.2.2.2.2.1 ⟨36, 0, false⟩ 2
        ⟨(36 * ((2 : Int) ^ 35).fmod 1225).fmod 1225, 0, true⟩ (by rfl)⟩⟩

/-- C9: `encrypt_encoded` (and hence `encrypt`) returns an already
obfuscated instance exactly when the caller supplies no `r_value`; a
supplied `r_value` makes the returned instance fresh. -/
theorem C9_encrypt_obfuscation (pk : PaillierPublicKey) (r_obf : Int) :
    (∀ encoding e, pk.encrypt_encoded encoding none r_obf = .ok e →
      e.is_obfuscated = true) ∧
    (∀ encoding r e, pk.encrypt_encoded encoding (some r) r_obf = .ok e →
      e.is_obfuscated = false) ∧
    (∀ v e, pk.encrypt v none r_obf = .ok e → e.is_obfuscated = true) ∧
    (∀ v r e, pk.encrypt v (some r) r_obf = .ok e →
      e.is_obfuscated = false) := by
  have h1 : ∀ encoding e, pk.encrypt_encoded encoding none r_obf = .ok e →
      e.is_obfuscated = true := by
    intro encoding e h
    unfold PaillierPublicKey.encrypt_encoded at h
    rcases hR : pk.raw_encrypt encoding.encoding 1 with err | c
    · simp only [hR, except_bind_error] at h
      injection h
    · simp only [hR, except_bind_ok] at h
      exact obfuscate_flag pk h
  have h2 : ∀ encoding r e, pk.encrypt_encoded encoding (some r) r_obf =
      .ok e → e.is_obfuscated = false := by
    intro encoding r e h
    unfold PaillierPublicKey.encrypt_encoded at h
    rcases hR : pk.raw_encrypt encoding.encoding
      (if r = 0 then 1 else r) with err | c
    · simp only [hR, except_bind_error] at h
      injection h
    · simp only [hR, except_bind_ok, except_pure] at h
      injection h with h'
      rw [← h']
  refine ⟨h1, h2, ?_, ?_⟩
  · intro v e h
    unfold PaillierPublicKey.encrypt at h
    rcases hE : EncodedNumber.encode pk v none with err | enc
    · simp only [hE, except_bind_error] at h
      injection h
    · simp only [hE, except_bind_ok] at h
      exact h1 enc e h
  · intro v r e h
    unfold PaillierPublicKey.encrypt at h
    rcases hE : EncodedNumber.encode pk v none with err | enc
    · simp only [hE, except_bind_error] at h
      injection h
    · simp only [hE, except_bind_ok] at h
      exact h2 enc r e h

/-- Witness for C9 at `n = 35`, encoding `(1, 0)`. -/
theorem C9_encrypt_obfuscation_witness :
    (∃ e, PaillierPublicKey.encrypt_encoded ⟨35⟩ ⟨1, 0⟩ none 3 = .ok e ∧
      e.is_obfuscated = true) ∧
    (∃ e, PaillierPublicKey.encrypt_encoded ⟨35⟩ ⟨1, 0⟩ (some 2) 1 = .ok e ∧
      e.is_obfuscated = false) := by
  have h := C9_encrypt_obfuscation ⟨35⟩ 3
  have h' := C9_encrypt_obfuscation ⟨35⟩ 1
  refine ⟨⟨⟨1027, 0, true⟩, by rfl, h.1 ⟨1, 0⟩ ⟨1027, 0, true⟩ (by rfl)⟩,
    ⟨⟨648, 0, false⟩, by rfl, h'.2.1 ⟨1, 0⟩ 2 ⟨648, 0, false⟩ (by rfl)⟩⟩

/-- C10: for every private key with factors `0 < p < q` (and the stored
squares), `raw_decrypt` succeeds on every integer ciphertext and returns a
residue in `[0, p·q)`; in particular the result can never trigger the
`residue ≥ n` corruption check of `decode`. -/
theorem C10_raw_decrypt_range (sk : PaillierPrivateKey)
    (hp : 0 < sk.p) (hpq : sk.p < sk.q)
    (hsp : sk.psquare = sk.p * sk.p) (hsq : sk.qsquare = sk.q * sk.q)
    (c : Int) :
    ∃ v, sk.raw_decrypt c = .ok v ∧ 0 ≤ v ∧ v < sk.p * sk.q ∧
      ∀ pk : PaillierPublicKey, pk.n = sk.p * sk.q →
        EncodedNumber.decodeMantissa pk v ≠ .error .corrupted := by
  have hq : (0 : Int) < sk.q := by omega
  have hps : sk.psquare ≠ 0 := by rw [hsp]; positivity
  have hqs : sk.qsquare ≠ 0 := by rw [hsq]; positivity
  obtain ⟨wp, hwp⟩ := powmod_isOk (a := c) ((sk.p - 1).toNat) hps
  obtain ⟨wq, hwq⟩ := powmod_isOk (a := c) ((sk.q - 1).toNat) hqs
  obtain ⟨hv0, hvlt⟩ := crt_bounds sk hp hq
    ((PaillierPrivateKey.l_function wp sk.p * sk.hp).fmod sk.p)
    ((PaillierPrivateKey.l_function wq sk.q * sk.hq).fmod sk.q)
    (fmod_nonneg' _ hp) (fmod_lt_of_pos _ hp)
  unfold PaillierPrivateKey.raw_decrypt
  rw [hwp, hwq]
  refine ⟨sk.crt ((PaillierPrivateKey.l_function wp sk.p * sk.hp).fmod sk.p)
    ((PaillierPrivateKey.l_function wq sk.q * sk.hq).fmod sk.q),
    rfl, hv0, hvlt, ?_⟩
  intro pk hpk h
  unfold EncodedNumber.decodeMantissa at h
  split_ifs at h with g1 g2 g3
  · rw [hpk] at g1
    exact absurd g1 (not_le.mpr hvlt)
  · exact Err.noConfusion (Except.error.inj h)

/-- Witness for C10 at the `(5, 7)` key and ciphertext `-123`. -/
theorem C10_raw_decrypt_range_witness :
    ∃ v, PaillierPrivateKey.raw_decrypt ⟨5, 7, 25, 49, 3, 2, 4⟩ (-123) =
      .ok v ∧ 0 ≤ v ∧
      v < (⟨5, 7, 25, 49, 3, 2, 4⟩ : PaillierPrivateKey).p *
        (⟨5, 7, 25, 49, 3, 2, 4⟩ : PaillierPrivateKey).q ∧
      ∀ pk : PaillierPublicKey,
        pk.n = (⟨5, 7, 25, 49, 3, 2, 4⟩ : PaillierPrivateKey).p *
          (⟨5, 7, 25, 49, 3, 2, 4⟩ : PaillierPrivateKey).q →
        EncodedNumber.decodeMantissa pk v ≠ .error .corrupted :=
  C10_raw_decrypt_range ⟨5, 7, 25, 49, 3, 2, 4⟩ (by decide) (by decide)
    (by rfl) (by rfl) (-123)


/-- C8: for every integer `n` below `20000` and every choice of Miller-Rabin
witnesses `ws` drawn from `[2, n-2]`, `is_prime n ws` returns `True` exactly
when `n` is prime, i.e. it agrees with trial division: the embedded table
answers for `n` up to its last entry `17863`, and trial division by the
table primes settles every composite below `20000` while Miller-Rabin
accepts every prime with any such witnesses. -/
theorem C8_is_prime_agrees {n : Nat} (hn : n < 20000) {ws : List Nat}
    (hws : ∀ a ∈ ws, 2 ≤ a ∧ a ≤ n - 2) :
    is_prime n ws = Except.ok true ↔ Nat.Prime n := by
  unfold is_prime
  rw [first_primes_last]
  by_cases hle : n ≤ 17863
  · rw [if_pos hle]
    constructor
    · intro h
      injection h with h'
      have hmem : n ∈ first_primes := List.elem_iff.mp h'
      have := (mem_first_primes.mp hmem).2
      exact (smallPrime_iff (by omega)).mp this
    · intro hp
      have hs : smallPrime n = true := (smallPrime_iff (by omega)).mpr hp
      have hmem : n ∈ first_primes := mem_first_primes.mpr ⟨by omega, hs⟩
      have hb : first_primes.elem n = true := List.elem_iff.mpr hmem
      show Except.ok (first_primes.elem n) = Except.ok true
      rw [hb]
  · rw [if_neg hle]
    push_neg at hle
    by_cases hp : Nat.Prime n
    · have hany : first_primes.any (fun p => n % p == 0) = false := by
        rw [← Bool.not_eq_true, List.any_eq_true]
        rintro ⟨p, hmem, hmod⟩
        obtain ⟨hplt, hps⟩ := mem_first_primes.mp hmem
        have hpp : Nat.Prime p := (smallPrime_iff (by omega)).mp hps
        rw [beq_iff_eq] at hmod
        have hdvd : p ∣ n := Nat.dvd_of_mod_eq_zero hmod
        have := (Nat.prime_dvd_prime_iff_eq hpp hp).mp hdvd
        omega
      rw [hany, if_neg (by simp)]
      rw [miller_rabin_prime hp (by omega) ws hws]
      simp [hp]
    · have hn1 : n ≠ 1 := by omega
      have hmf := Nat.minFac_prime hn1
      have hsq := Nat.minFac_sq_le_self (show 0 < n by omega) hp
      have hlt : n.minFac < 142 := by
        by_contra hge
        push_neg at hge
        have : 142 ^ 2 ≤ n.minFac ^ 2 := Nat.pow_le_pow_left hge 2
        omega
      have hs : smallPrime n.minFac = true :=
        (smallPrime_iff (by omega)).mpr hmf
      have hmem : n.minFac ∈ first_primes :=
        mem_first_primes.mpr ⟨by omega, hs⟩
      have hany : first_primes.any (fun p => n % p == 0) = true := by
        rw [List.any_eq_true]
        refine ⟨n.minFac, hmem, ?_⟩
        rw [beq_iff_eq]
        exact Nat.mod_eq_zero_of_dvd (Nat.minFac_dvd n)
      rw [hany, if_pos rfl]
      constructor
      · intro h
        injection h with h'
        exact absurd h' (by decide)
      · intro hp'
        exact absurd hp' hp

/-- Witness for C8 at the prime `19997` (above the table) with the witness
list `[2, 3]`. -/
theorem C8_is_prime_agrees_witness :
    19997 < 20000 ∧
      (is_prime 19997 [2, 3] = Except.ok true ↔ Nat.Prime 19997) :=
  ⟨by decide, C8_is_prime_agrees (by decide) (by decide)⟩
end Claims

end HomoReducer
